import Mathlib

/-!
Verification of the discrete-event open queueing network simulator
(`simulation_gui.py`, class `SimulationModel` plus the analytical block of
`SimulatorGUI.finish_and_compare`).

The engine state and its operations are embedded shallowly: simulated times
and random draws are rationals, the random source is modelled as two oracle
streams (one for `random.expovariate`, indexed by call number and rate, and
one for `random.random`), and per-station tables (the Python dicts keyed by
station ids 1..4) are functions out of natural numbers updated pointwise.
Python `list.append` followed by the stable `list.sort()` on the event list
is embedded as ordered insertion that places the new event after all events
of equal time.
-/

namespace QNet

/-- A customer: identity and the clock value stored at creation
(source: class `Customer`). -/
structure Customer where
  id : Nat
  arrival_time : ℚ
deriving DecidableEq, Repr

/-- Event kind (source: the `type` strings ARRIVAL / DEPARTURE). -/
inductive EType where
  | ARRIVAL
  | DEPARTURE
deriving DecidableEq, Repr

/-- A future-event-list entry (source: class `Event`). -/
structure Event where
  time : ℚ
  type : EType
  customer : Customer
  queue_id : Nat
deriving DecidableEq, Repr

/-- Per-station statistics record (source: the `stats[i]` dict). -/
structure StationStats where
  L_accum : ℚ
  Q_accum : ℚ
  Busy_accum : ℚ
  Arrivals : Nat
  Departures : Nat
deriving DecidableEq, Repr

/-- Zeroed statistics record. -/
def StationStats.zero : StationStats :=
  { L_accum := 0, Q_accum := 0, Busy_accum := 0, Arrivals := 0, Departures := 0 }

/-- Pointwise update of a station-indexed table (the Python dict write). -/
def upd {α : Type} (f : Nat → α) (i : Nat) (a : α) : Nat → α :=
  fun j => if j = i then a else f j

@[simp]
theorem upd_same {α : Type} (f : Nat → α) (i : Nat) (a : α) : upd f i a i = a := by
  simp [upd]

theorem upd_apply {α : Type} (f : Nat → α) (i : Nat) (a : α) (j : Nat) :
    upd f i a j = if j = i then a else f j := rfl

@[simp]
theorem upd_ne {α : Type} (f : Nat → α) (i : Nat) (a : α) (j : Nat) (h : j ≠ i) :
    upd f i a j = f j := by
  simp [upd, h]

/-- Source rate constant `LAMBDA_SOURCE_RATE = 4`. -/
def LAMBDA_SOURCE_RATE : ℚ := 4

/-- Service rates `MU_RATES = {1: 5, 2: 3, 3: 3, 4: 5}`.  The source dict has
keys 1..4 only; other indices never occur at a call site. -/
def MU_RATES (i : Nat) : ℚ :=
  if i = 1 then 5 else if i = 2 then 3 else if i = 3 then 3 else 5

/-- Routing probability `PROBS['1_to_2'] = 0.4`. -/
def p12 : ℚ := 2/5

/-- Routing probability `PROBS['4_exit'] = 0.9`. -/
def p4out : ℚ := 9/10

/-- The random source: oracle streams standing for `random.expovariate`
(indexed by call count and the rate argument) and `random.random` (indexed by
call count).  Only the call counters change during a run, so a fixed oracle
fully determines the trace (the injectable stub of the deterministic test
scenario is one such oracle). -/
structure Rand where
  expo : Nat → ℚ → ℚ
  unif : Nat → ℚ
  ecount : Nat
  ucount : Nat

/-- Draw the next `random.expovariate(rate)` value. -/
def Rand.nextExpo (r : Rand) (rate : ℚ) : ℚ × Rand :=
  (r.expo r.ecount rate, { r with ecount := r.ecount + 1 })

/-- Draw the next `random.random()` value. -/
def Rand.nextUnif (r : Rand) : ℚ × Rand :=
  (r.unif r.ucount, { r with ucount := r.ucount + 1 })

/-- The whole mutable state of `SimulationModel`. -/
structure SimState where
  clock : ℚ
  events : List Event
  queues : Nat → List Customer
  server_busy : Nat → Bool
  stats : Nat → StationStats
  completed_count : Nat
  total_response_time : ℚ
  last_update : ℚ
  cust_counter : Nat
  warmup_count : Nat
  is_warming_up : Bool
  steady_start_time : ℚ
  rand : Rand

/-- `schedule`'s event-list update: the source appends and re-sorts with the
stable Python sort under `Event.__lt__` (comparison on `time` only), which
places the new event after every event of time less than or equal to its
own. -/
def insertEvent : List Event → Event → List Event
  | [], e => [e]
  | x :: xs, e => if e.time < x.time then e :: x :: xs else x :: insertEvent xs e

/-- `SimulationModel.schedule`. -/
def schedule (s : SimState) (e : Event) : SimState :=
  { s with events := insertEvent s.events e }

/-- The loop body of `update_accumulators` for one station. -/
def integrateStation (st : StationStats) (q : List Customer) (busy : Bool)
    (delta : ℚ) : StationStats :=
  { st with
    L_accum := st.L_accum + (q.length : ℚ) * delta
    Q_accum := st.Q_accum + (if busy then max ((q.length : ℚ) - 1) 0 else 0) * delta
    Busy_accum := st.Busy_accum + (if busy then delta else 0) }

/-- `SimulationModel.update_accumulators`: during warm-up only the timestamp
moves; afterwards the three time integrals of stations 1..4 are advanced by
`delta = clock - last_update` and then the timestamp moves.  Note that the
function reads `self.clock`, which at its only call site still holds the
previous event's time. -/
def updateAccumulators (s : SimState) : SimState :=
  if s.is_warming_up then { s with last_update := s.clock }
  else
    { s with
      stats := fun i =>
        if 1 ≤ i ∧ i ≤ 4 then
          integrateStation (s.stats i) (s.queues i) (s.server_busy i)
            (s.clock - s.last_update)
        else s.stats i
      last_update := s.clock }

/-- `SimulationModel.reset_stats_post_warmup`. -/
def resetStatsPostWarmup (s : SimState) : SimState :=
  { s with
    stats := fun _ => StationStats.zero
    completed_count := 0
    total_response_time := 0
    last_update := s.clock
    is_warming_up := false
    steady_start_time := s.clock }

/-- `SimulationModel.handle_arrival`: append the customer, count the arrival,
and if the server is idle start service and schedule its departure. -/
def handleArrival (s : SimState) (e : Event) : SimState :=
  let q := e.queue_id
  let s1 : SimState :=
    { s with
      queues := upd s.queues q (s.queues q ++ [e.customer])
      stats := upd s.stats q
        { s.stats q with Arrivals := (s.stats q).Arrivals + 1 } }
  if s1.server_busy q then s1
  else
    let s2 : SimState := { s1 with server_busy := upd s1.server_busy q true }
    let d := s2.rand.nextExpo (MU_RATES q)
    let s3 : SimState := { s2 with rand := d.2 }
    schedule s3 { time := s3.clock + d.1, type := EType.DEPARTURE,
                  customer := e.customer, queue_id := q }

/-- The routing decision of `handle_departure`: `none` is the EXIT sentinel.
For a station id outside 1..4 the Python code would leave `next_q = None`
and then crash inside `handle_arrival`; such ids never reach this point
(events only ever carry stations 1..4), and the total model maps them to
`none`. -/
def routeOf (q : Nat) (r : ℚ) : Option Nat :=
  if q = 1 then some (if r < p12 then 2 else 3)
  else if q = 2 then some 4
  else if q = 3 then some 4
  else if q = 4 then (if r < p4out then none else some 3)
  else none

/-- The EXIT branch of `handle_departure`: warm-up counting with the one-time
statistics reset, or completion counting. -/
def exitUpdate (w : Nat) (s : SimState) (c : Customer) : SimState :=
  if s.is_warming_up then
    let s1 : SimState := { s with warmup_count := s.warmup_count + 1 }
    if w ≤ s1.warmup_count then resetStatsPostWarmup s1 else s1
  else
    { s with
      completed_count := s.completed_count + 1
      total_response_time := s.total_response_time + (s.clock - c.arrival_time) }

/-- The tail of `handle_departure`: restart service for the new head if the
queue is non-empty, else mark the server idle. -/
def restartService (s : SimState) (q : Nat) : SimState :=
  match s.queues q with
  | [] => { s with server_busy := upd s.server_busy q false }
  | c2 :: _ =>
    let s1 : SimState := { s with server_busy := upd s.server_busy q true }
    let d := s1.rand.nextExpo (MU_RATES q)
    let s2 : SimState := { s1 with rand := d.2 }
    schedule s2 { time := s2.clock + d.1, type := EType.DEPARTURE,
                  customer := c2, queue_id := q }

/-- `SimulationModel.handle_departure`.  The source pops the queue head
unconditionally (`self.queues[q].pop(0)`); an empty queue would raise, which
never happens for engine-generated events, and the total model returns the
state unchanged there. -/
def handleDeparture (w : Nat) (s : SimState) (e : Event) : SimState :=
  let q := e.queue_id
  match s.queues q with
  | [] => s
  | c :: rest =>
    let s1 : SimState :=
      { s with
        queues := upd s.queues q rest
        stats := upd s.stats q
          { s.stats q with Departures := (s.stats q).Departures + 1 } }
    let d := s1.rand.nextUnif
    let s2 : SimState := { s1 with rand := d.2 }
    let s3 : SimState :=
      match routeOf q d.1 with
      | none => exitUpdate w s2 c
      | some nq =>
        handleArrival s2 { time := s2.clock, type := EType.ARRIVAL,
                           customer := c, queue_id := nq }
    restartService s3 q

/-- The external-source block inside `step`'s ARRIVAL branch: when the popped
arrival is the expected next external customer at station 1, advance the
customer counter and schedule the next external arrival.  The new customer
record stores the current clock as its `arrival_time` even though its
ARRIVAL event lies one interarrival draw in the future. -/
def externalSpawn (s : SimState) (e : Event) : SimState :=
  if e.queue_id = 1 ∧ e.customer.id = s.cust_counter then
    let s1 : SimState := { s with cust_counter := s.cust_counter + 1 }
    let d := s1.rand.nextExpo LAMBDA_SOURCE_RATE
    let s2 : SimState := { s1 with rand := d.2 }
    schedule s2 { time := s2.clock + d.1, type := EType.ARRIVAL,
                  customer := { id := s2.cust_counter, arrival_time := s2.clock },
                  queue_id := 1 }
  else s

/-- The common prefix of `step` once an event has been popped: drop it from
the list, run `update_accumulators` (still at the old clock), then advance
the clock to the event's time. -/
def preState (s : SimState) (e : Event) (rest : List Event) : SimState :=
  { updateAccumulators { s with events := rest } with clock := e.time }

/-- `SimulationModel.step` for warm-up threshold `w` and completion target
`m` (the source reads these from the module constants `WARM_UP_CUSTOMERS`
and `MAX_COMPLETED`).  Returns the processed event and the new state, or
`none` for the terminal "Simulation Finished" answer. -/
def step (w m : Nat) (s : SimState) : Option (Event × SimState) :=
  match s.events with
  | [] => none
  | e :: rest =>
    if m ≤ s.completed_count then none
    else
      match e.type with
      | EType.ARRIVAL => some (e, externalSpawn (handleArrival (preState s e rest) e) e)
      | EType.DEPARTURE => some (e, handleDeparture w (preState s e rest) e)

/-- `SimulationModel.reset` with injected random source `r`: fresh state plus
the seed external arrival `Event(expovariate(lambda), ARRIVAL, Customer(1, 0), 1)`. -/
def initState (r : Rand) : SimState :=
  let base : SimState :=
    { clock := 0, events := [], queues := fun _ => [],
      server_busy := fun _ => false, stats := fun _ => StationStats.zero,
      completed_count := 0, total_response_time := 0, last_update := 0,
      cust_counter := 1, warmup_count := 0, is_warming_up := true,
      steady_start_time := 0, rand := r }
  let d := base.rand.nextExpo LAMBDA_SOURCE_RATE
  schedule { base with rand := d.2 }
    { time := d.1, type := EType.ARRIVAL,
      customer := { id := 1, arrival_time := 0 }, queue_id := 1 }

/-- Run up to `fuel` steps, returning the list of processed events and the
final state (the `run_instant` loop restricted to the engine). -/
def runEvents (w m : Nat) : Nat → SimState → List Event × SimState
  | 0, s => ([], s)
  | fuel + 1, s =>
    match step w m s with
    | none => ([], s)
    | some p =>
      let q := runEvents w m fuel p.2
      (p.1 :: q.1, q.2)

/-- States reachable from a freshly reset engine by repeated `step` calls. -/
inductive Reachable (w m : Nat) : SimState → Prop
  | init (r : Rand) : Reachable w m (initState r)
  | next {s : SimState} {e : Event} {s2 : SimState} :
      Reachable w m s → step w m s = some (e, s2) → Reachable w m s2

/-- The deterministic test stub: interarrival draws 1.0, service draws 0.5
at every station, routing draws 0.2. -/
def stubRand : Rand :=
  { expo := fun _ rate => if rate = LAMBDA_SOURCE_RATE then 1 else 1/2
    unif := fun _ => 1/5
    ecount := 0
    ucount := 0 }

/-- Bool test for a DEPARTURE event of station `i`. -/
def isDep (i : Nat) (e : Event) : Bool :=
  decide (e.type = EType.DEPARTURE) && decide (e.queue_id = i)

/-- Bool test for an ARRIVAL event. -/
def isArr (e : Event) : Bool :=
  decide (e.type = EType.ARRIVAL)

/-- The deterministic-trace scenario of the spec: warm-up threshold 0,
completion target 5, stub draws; 40 units of fuel are more than the run
needs, so the pair below is the complete terminated run. -/
def stubTrace : List Event × SimState :=
  runEvents 0 5 40 (initState stubRand)

/-- Per-station analytical metrics (the `ana_metrics[i]` dict of
`finish_and_compare`). -/
structure AnaMetrics where
  Rho : ℚ
  L : ℚ
  Lq : ℚ
  W : ℚ
  Wq : ℚ
deriving DecidableEq, Repr

/-- The per-station analytical computation in `finish_and_compare`: given the
effective arrival rate `l` and service rate `m`, it computes `rho = l/m`,
`L = rho/(1-rho)`, `Lq = L - rho`, `W = 1/(m-l)`, `Wq = W - 1/m` with no
stability check whatsoever.  The only way it can fail to produce values is
the Python `ZeroDivisionError`, raised exactly when `m = 0` or `rho = 1`;
that error is modelled as `none`. -/
def anaStation (l m : ℚ) : Option AnaMetrics :=
  if m = 0 then none
  else
    let rho := l / m
    if rho = 1 then none
    else
      some { Rho := rho, L := rho / (1 - rho), Lq := rho / (1 - rho) - rho,
             W := 1 / (m - l), Wq := 1 / (m - l) - 1 / m }

/-- State of the deterministic-trace run after 6 processed events (the
warm-up reset has just fired at the first EXIT). -/
def stubState6 : SimState :=
  (runEvents 0 5 6 (initState stubRand)).2

/-- State of the deterministic-trace run after 8 processed events. -/
def stubState8 : SimState :=
  (runEvents 0 5 8 (initState stubRand)).2

/-- State of the deterministic-trace run after 9 processed events. -/
def stubState9 : SimState :=
  (runEvents 0 5 9 (initState stubRand)).2

/-- State of the deterministic-trace run after 1 processed event. -/
def stubState1 : SimState :=
  (runEvents 0 5 1 (initState stubRand)).2

/-- State after one step under warm-up threshold 1000 with the stub draws. -/
def stubW1000 : SimState :=
  (runEvents 1000 5 1 (initState stubRand)).2

/-- C1, counterexample: in the deterministic trace scenario the engine does
not process 10 events with total response time 5 × 2.0 — the terminated run
processes 26 events and accumulates total response time 25/2.  (Routing
transfers are direct handler calls, so each counted customer costs one
ARRIVAL plus three DEPARTURE events; the warm-up logic discards the first
exiting customer even at threshold 0; and each recorded response includes
one interarrival because `arrival_time` is set at scheduling time.) -/
theorem c1_counterexample :
    stubTrace.1.length = 26 ∧ stubTrace.2.total_response_time = 25/2 ∧
    ¬(stubTrace.1.length = 10 ∧ stubTrace.2.total_response_time = 5 * 2) := by
  with_unfolding_all decide

/-- C1 (amended): in the deterministic trace scenario — stub draws
(interarrival 1, service 1/2, routing 1/5), warm-up threshold 0, completion
target 5 — the engine terminates after processing 26 events (7 external
ARRIVALs at station 1, 7 DEPARTUREs from station 1, 6 from station 2, none
from station 3, 6 from station 4), with `completed_count = 5` and
`total_response_time = 5 × 5/2`. -/
theorem c1_deterministic_trace :
    stubTrace.1.length = 26 ∧
    stubTrace.1.countP isArr = 7 ∧
    (∀ e ∈ stubTrace.1, isArr e = true → e.queue_id = 1) ∧
    stubTrace.1.countP (isDep 1) = 7 ∧
    stubTrace.1.countP (isDep 2) = 6 ∧
    stubTrace.1.countP (isDep 3) = 0 ∧
    stubTrace.1.countP (isDep 4) = 6 ∧
    stubTrace.2.completed_count = 5 ∧
    stubTrace.2.total_response_time = 5 * (5/2) ∧
    (step 0 5 stubTrace.2).isNone = true := by
  with_unfolding_all decide

/-- C2, counterexample: after 8 steps of the deterministic trace run the
clock and `last_update` both read 3, station 1 holds one customer, and the
ninth processed event is the station-1 departure at time 7/2.  The claim
demands that the ninth step add `1 × (7/2 − 3) = 1/2` to station 1's
`L_accum`; the code leaves `L_accum` at 1/2 unchanged, because
`update_accumulators` runs before the clock advances, so its delta is
`3 − 3 = 0`. -/
theorem c2_counterexample :
    stubState8.clock = 3 ∧ stubState8.last_update = 3 ∧
    stubState8.is_warming_up = false ∧
    (stubState8.queues 1).length = 1 ∧
    (stubTrace.1.drop 8).head? =
      some { time := 7/2, type := EType.DEPARTURE,
             customer := { id := 3, arrival_time := 2 }, queue_id := 1 } ∧
    (stubState8.stats 1).L_accum = 1/2 ∧
    (stubState9.stats 1).L_accum = 1/2 ∧
    ¬((stubState9.stats 1).L_accum =
        (stubState8.stats 1).L_accum +
          ((stubState8.queues 1).length : ℚ) * (7/2 - stubState8.clock)) := by
  with_unfolding_all decide

/-- C3, counterexample: right after the warm-up statistics reset (6 steps
into the deterministic trace run) station 2 still holds one customer while
its `Arrivals` and `Departures` counters have been zeroed, so
`Arrivals − Departures = current_queue_length` fails. -/
theorem c3_counterexample :
    stubState6.is_warming_up = false ∧
    (stubState6.stats 2).Arrivals = 0 ∧
    (stubState6.stats 2).Departures = 0 ∧
    (stubState6.queues 2).length = 1 ∧
    ¬((stubState6.stats 2).Arrivals =
        (stubState6.stats 2).Departures + (stubState6.queues 2).length) := by
  with_unfolding_all decide

/-- C4, counterexample: the seed customer's ARRIVAL event at station 1 is
scheduled at clock value 1 (the first interarrival draw), but the customer
record carries `arrival_time = 0` — the clock at creation, not the clock at
which it enters the network. -/
theorem c4_counterexample :
    (initState stubRand).events =
      [{ time := 1, type := EType.ARRIVAL,
         customer := { id := 1, arrival_time := 0 }, queue_id := 1 }] ∧
    ¬ ((initState stubRand).events.map (fun ev => ev.customer.arrival_time) =
       (initState stubRand).events.map (fun ev => ev.time)) := by
  with_unfolding_all decide

/-- C5, counterexample: one step into a run with warm-up threshold 1000, the
warm-up count is still 0 and the engine is warming up, yet station 1's
`Arrivals` counter already reads 1 — the event counters are not kept at
zero during warm-up (only the three time integrals are). -/
theorem c5_counterexample :
    stubW1000.warmup_count < 1000 ∧
    stubW1000.is_warming_up = true ∧
    ¬((stubW1000.stats 1).Arrivals = 0) := by
  with_unfolding_all decide

/-- C6: `reset_stats_post_warmup` preserves every piece of physical network
state — queue contents, busy flags, pending events, the clock, the external
customer counter (and the warm-up count and random source) — while zeroing
exactly the statistics records, `completed_count` and
`total_response_time`, re-anchoring `last_update` to the clock, clearing
`is_warming_up` and stamping `steady_start_time` with the clock. -/
theorem c6_reset_frame (s : SimState) :
    (resetStatsPostWarmup s).queues = s.queues ∧
    (resetStatsPostWarmup s).server_busy = s.server_busy ∧
    (resetStatsPostWarmup s).events = s.events ∧
    (resetStatsPostWarmup s).clock = s.clock ∧
    (resetStatsPostWarmup s).cust_counter = s.cust_counter ∧
    (resetStatsPostWarmup s).warmup_count = s.warmup_count ∧
    (resetStatsPostWarmup s).rand = s.rand ∧
    (∀ i, (resetStatsPostWarmup s).stats i = StationStats.zero) ∧
    (resetStatsPostWarmup s).completed_count = 0 ∧
    (resetStatsPostWarmup s).total_response_time = 0 ∧
    (resetStatsPostWarmup s).last_update = s.clock ∧
    (resetStatsPostWarmup s).is_warming_up = false ∧
    (resetStatsPostWarmup s).steady_start_time = s.clock := by
  refine ⟨rfl, rfl, rfl, rfl, rfl, rfl, rfl, fun i => rfl, rfl, rfl, rfl, rfl, rfl⟩

/-- C9, counterexample: at effective arrival rate 6 and service rate 3 the
utilization is 2 ≥ 1, yet the analytical computation silently returns
finite (negative) metrics instead of reporting an error. -/
theorem c9_counterexample :
    (1 : ℚ) ≤ 6 / 3 ∧
    anaStation 6 3 =
      some { Rho := 2, L := -2, Lq := -4, W := -1/3, Wq := -2/3 } ∧
    ¬ anaStation 6 3 = none := by
  with_unfolding_all decide

/-- C9 (amended): the analytical computation performs no stability check.
For utilization strictly above 1 it silently returns finite metrics with a
negative `L`; only at utilization exactly 1 does it fail (the Python
ZeroDivisionError, modelled as `none`). -/
theorem c9_no_stability_check (l m : ℚ) (hm : 0 < m) :
    (1 < l / m → ∃ v, anaStation l m = some v ∧ v.L < 0) ∧
    (l / m = 1 → anaStation l m = none) := by
  constructor
  · intro h
    have hne : l / m ≠ 1 := ne_of_gt h
    have hval : anaStation l m =
        some { Rho := l / m, L := l / m / (1 - l / m),
               Lq := l / m / (1 - l / m) - l / m,
               W := 1 / (m - l), Wq := 1 / (m - l) - 1 / m } := by
      simp only [anaStation, if_neg hm.ne', if_neg hne]
    refine ⟨_, hval, ?_⟩
    have h1 : (0 : ℚ) < l / m := lt_trans one_pos h
    have h2 : 1 - l / m < 0 := by linarith
    exact div_neg_of_pos_of_neg h1 h2
  · intro h
    simp [anaStation, hm.ne', h]

/-- Witness for C9 (amended) at the concrete rates l = 3, m = 3 (utilization
exactly 1: the computation fails rather than returning metrics). -/
theorem c9_no_stability_check_witness : anaStation 3 3 = none :=
  (c9_no_stability_check 3 3 (by norm_num)).2 (by norm_num)

/-! ### Event-list toolkit -/

theorem mem_insertEvent {l : List Event} {e a : Event} :
    a ∈ insertEvent l e ↔ a ∈ l ∨ a = e := by
  induction l with
  | nil => simp [insertEvent]
  | cons x xs ih =>
    by_cases hlt : e.time < x.time
    · simp only [insertEvent, if_pos hlt, List.mem_cons]
      tauto
    · simp only [insertEvent, if_neg hlt, List.mem_cons, ih]
      tauto

theorem countP_insertEvent (l : List Event) (e : Event) (p : Event → Bool) :
    (insertEvent l e).countP p = l.countP p + (if p e then 1 else 0) := by
  induction l with
  | nil => simp [insertEvent, List.countP_cons]
  | cons x xs ih =>
    by_cases hlt : e.time < x.time
    · simp only [insertEvent, if_pos hlt, List.countP_cons]
    · simp only [insertEvent, if_neg hlt, List.countP_cons, ih]
      omega

theorem pairwise_insertEvent {l : List Event} {e : Event}
    (h : l.Pairwise (fun a b => a.time ≤ b.time)) :
    (insertEvent l e).Pairwise (fun a b => a.time ≤ b.time) := by
  induction l with
  | nil => simp [insertEvent]
  | cons x xs ih =>
    rcases List.pairwise_cons.1 h with ⟨hx, hxs⟩
    by_cases hlt : e.time < x.time
    · rw [insertEvent, if_pos hlt]
      refine List.pairwise_cons.2 ⟨?_, h⟩
      intro b hb
      rcases List.mem_cons.1 hb with rfl | hb
      · exact le_of_lt hlt
      · exact le_trans (le_of_lt hlt) (hx b hb)
    · rw [insertEvent, if_neg hlt]
      refine List.pairwise_cons.2 ⟨?_, ih hxs⟩
      intro b hb
      rcases mem_insertEvent.1 hb with hb | rfl
      · exact hx b hb
      · exact le_of_not_lt hlt

theorem lb_insertEvent {l : List Event} {e : Event} {c : ℚ}
    (hl : ∀ x ∈ l, c ≤ x.time) (he : c ≤ e.time) :
    ∀ x ∈ insertEvent l e, c ≤ x.time := by
  intro x hx
  rcases mem_insertEvent.1 hx with h | rfl
  · exact hl x h
  · exact he

/-! ### Extensional characterizations of the engine operations -/

theorem handleArrival_queues (s : SimState) (e : Event) :
    (handleArrival s e).queues =
      upd s.queues e.queue_id (s.queues e.queue_id ++ [e.customer]) := by
  simp only [handleArrival, schedule]
  split <;> rfl

theorem handleArrival_busy (s : SimState) (e : Event) :
    (handleArrival s e).server_busy =
      if s.server_busy e.queue_id = true then s.server_busy
      else upd s.server_busy e.queue_id true := by
  simp only [handleArrival, schedule]
  split <;> simp_all

theorem handleArrival_events (s : SimState) (e : Event) :
    (handleArrival s e).events =
      if s.server_busy e.queue_id = true then s.events
      else
        insertEvent s.events
          { time := s.clock + s.rand.expo s.rand.ecount (MU_RATES e.queue_id),
            type := EType.DEPARTURE, customer := e.customer,
            queue_id := e.queue_id } := by
  simp only [handleArrival, schedule, Rand.nextExpo]
  split <;> simp_all

theorem handleArrival_stats (s : SimState) (e : Event) :
    (handleArrival s e).stats =
      upd s.stats e.queue_id
        { s.stats e.queue_id with
          Arrivals := (s.stats e.queue_id).Arrivals + 1 } := by
  simp only [handleArrival, schedule]
  split <;> rfl

theorem handleArrival_ecount (s : SimState) (e : Event) :
    (handleArrival s e).rand.ecount =
      if s.server_busy e.queue_id = true then s.rand.ecount
      else s.rand.ecount + 1 := by
  simp only [handleArrival, schedule, Rand.nextExpo]
  split <;> simp_all

theorem handleArrival_clock (s : SimState) (e : Event) :
    (handleArrival s e).clock = s.clock := by
  simp only [handleArrival, schedule]
  split <;> rfl

theorem handleArrival_completed (s : SimState) (e : Event) :
    (handleArrival s e).completed_count = s.completed_count := by
  simp only [handleArrival, schedule]
  split <;> rfl

theorem handleArrival_trt (s : SimState) (e : Event) :
    (handleArrival s e).total_response_time = s.total_response_time := by
  simp only [handleArrival, schedule]
  split <;> rfl

theorem handleArrival_last_update (s : SimState) (e : Event) :
    (handleArrival s e).last_update = s.last_update := by
  simp only [handleArrival, schedule]
  split <;> rfl

theorem handleArrival_cust_counter (s : SimState) (e : Event) :
    (handleArrival s e).cust_counter = s.cust_counter := by
  simp only [handleArrival, schedule]
  split <;> rfl

theorem handleArrival_warmup_count (s : SimState) (e : Event) :
    (handleArrival s e).warmup_count = s.warmup_count := by
  simp only [handleArrival, schedule]
  split <;> rfl

theorem handleArrival_warming (s : SimState) (e : Event) :
    (handleArrival s e).is_warming_up = s.is_warming_up := by
  simp only [handleArrival, schedule]
  split <;> rfl

theorem handleArrival_steady (s : SimState) (e : Event) :
    (handleArrival s e).steady_start_time = s.steady_start_time := by
  simp only [handleArrival, schedule]
  split <;> rfl

theorem handleArrival_expo (s : SimState) (e : Event) :
    (handleArrival s e).rand.expo = s.rand.expo := by
  simp only [handleArrival, schedule, Rand.nextExpo]
  split <;> rfl

theorem handleArrival_unif (s : SimState) (e : Event) :
    (handleArrival s e).rand.unif = s.rand.unif := by
  simp only [handleArrival, schedule, Rand.nextExpo]
  split <;> rfl

theorem restartService_nil {s : SimState} {q : Nat} (h : s.queues q = []) :
    restartService s q = { s with server_busy := upd s.server_busy q false } := by
  simp only [restartService, h]

theorem restartService_cons {s : SimState} {q : Nat} {c2 : Customer}
    {t : List Customer} (h : s.queues q = c2 :: t) :
    restartService s q =
      schedule
        { s with server_busy := upd s.server_busy q true,
                 rand := { s.rand with ecount := s.rand.ecount + 1 } }
        { time := s.clock + s.rand.expo s.rand.ecount (MU_RATES q),
          type := EType.DEPARTURE, customer := c2, queue_id := q } := by
  simp only [restartService, h, Rand.nextExpo]

theorem exitUpdate_reset {w : Nat} {s : SimState} {c : Customer}
    (h : s.is_warming_up = true) (h2 : w ≤ s.warmup_count + 1) :
    exitUpdate w s c =
      resetStatsPostWarmup { s with warmup_count := s.warmup_count + 1 } := by
  simp only [exitUpdate, h, if_true, if_pos h2]

theorem exitUpdate_warm {w : Nat} {s : SimState} {c : Customer}
    (h : s.is_warming_up = true) (h2 : ¬ w ≤ s.warmup_count + 1) :
    exitUpdate w s c = { s with warmup_count := s.warmup_count + 1 } := by
  simp only [exitUpdate, h, if_true, if_neg h2]

theorem exitUpdate_done {w : Nat} {s : SimState} {c : Customer}
    (h : s.is_warming_up = false) :
    exitUpdate w s c =
      { s with completed_count := s.completed_count + 1,
               total_response_time :=
                 s.total_response_time + (s.clock - c.arrival_time) } := by
  simp only [exitUpdate, h, Bool.false_eq_true, if_false]

theorem handleDeparture_nil {w : Nat} {s : SimState} {e : Event}
    (h : s.queues e.queue_id = []) :
    handleDeparture w s e = s := by
  simp only [handleDeparture, h]

/-- The state of `handle_departure` right after the head pop, the Departures
increment, and the routing draw. -/
def midDeparture (s : SimState) (q : Nat) (rest : List Customer) : SimState :=
  { s with
    queues := upd s.queues q rest
    stats := upd s.stats q
      { s.stats q with Departures := (s.stats q).Departures + 1 }
    rand := { s.rand with ucount := s.rand.ucount + 1 } }

theorem handleDeparture_cons {w : Nat} {s : SimState} {e : Event}
    {c : Customer} {rest : List Customer} (h : s.queues e.queue_id = c :: rest) :
    handleDeparture w s e =
      restartService
        (match routeOf e.queue_id (s.rand.unif s.rand.ucount) with
         | none => exitUpdate w (midDeparture s e.queue_id rest) c
         | some nq =>
           handleArrival (midDeparture s e.queue_id rest)
             { time := s.clock, type := EType.ARRIVAL,
               customer := c, queue_id := nq })
        e.queue_id := by
  simp only [handleDeparture, h, Rand.nextUnif, midDeparture]

theorem externalSpawn_hit {s : SimState} {e : Event}
    (h1 : e.queue_id = 1) (h2 : e.customer.id = s.cust_counter) :
    externalSpawn s e =
      schedule
        { s with cust_counter := s.cust_counter + 1,
                 rand := { s.rand with ecount := s.rand.ecount + 1 } }
        { time := s.clock + s.rand.expo s.rand.ecount LAMBDA_SOURCE_RATE,
          type := EType.ARRIVAL,
          customer := { id := s.cust_counter + 1, arrival_time := s.clock },
          queue_id := 1 } := by
  simp only [externalSpawn, h1, h2, and_self, if_true, Rand.nextExpo]

theorem externalSpawn_miss {s : SimState} {e : Event}
    (h : ¬ (e.queue_id = 1 ∧ e.customer.id = s.cust_counter)) :
    externalSpawn s e = s := by
  simp only [externalSpawn, if_neg h]

theorem preState_clock (s : SimState) (e : Event) (rest : List Event) :
    (preState s e rest).clock = e.time := rfl

theorem preState_events (s : SimState) (e : Event) (rest : List Event) :
    (preState s e rest).events = rest := by
  simp only [preState, updateAccumulators]
  split <;> rfl

theorem preState_queues (s : SimState) (e : Event) (rest : List Event) :
    (preState s e rest).queues = s.queues := by
  simp only [preState, updateAccumulators]
  split <;> rfl

theorem preState_busy (s : SimState) (e : Event) (rest : List Event) :
    (preState s e rest).server_busy = s.server_busy := by
  simp only [preState, updateAccumulators]
  split <;> rfl

theorem preState_completed (s : SimState) (e : Event) (rest : List Event) :
    (preState s e rest).completed_count = s.completed_count := by
  simp only [preState, updateAccumulators]
  split <;> rfl

theorem preState_trt (s : SimState) (e : Event) (rest : List Event) :
    (preState s e rest).total_response_time = s.total_response_time := by
  simp only [preState, updateAccumulators]
  split <;> rfl

theorem preState_last_update (s : SimState) (e : Event) (rest : List Event) :
    (preState s e rest).last_update = s.clock := by
  simp only [preState, updateAccumulators]
  split <;> rfl

theorem preState_cust_counter (s : SimState) (e : Event) (rest : List Event) :
    (preState s e rest).cust_counter = s.cust_counter := by
  simp only [preState, updateAccumulators]
  split <;> rfl

theorem preState_warmup_count (s : SimState) (e : Event) (rest : List Event) :
    (preState s e rest).warmup_count = s.warmup_count := by
  simp only [preState, updateAccumulators]
  split <;> rfl

theorem preState_warming (s : SimState) (e : Event) (rest : List Event) :
    (preState s e rest).is_warming_up = s.is_warming_up := by
  simp only [preState, updateAccumulators]
  split <;> rfl

theorem preState_steady (s : SimState) (e : Event) (rest : List Event) :
    (preState s e rest).steady_start_time = s.steady_start_time := by
  simp only [preState, updateAccumulators]
  split <;> rfl

theorem preState_rand (s : SimState) (e : Event) (rest : List Event) :
    (preState s e rest).rand = s.rand := by
  simp only [preState, updateAccumulators]
  split <;> rfl

theorem preState_stats_warm {s : SimState} (e : Event) (rest : List Event)
    (h : s.is_warming_up = true) :
    (preState s e rest).stats = s.stats := by
  simp only [preState, updateAccumulators, h, if_true]

theorem preState_stats_main {s : SimState} (e : Event) (rest : List Event)
    (h : s.is_warming_up = false) :
    (preState s e rest).stats = fun i =>
      if 1 ≤ i ∧ i ≤ 4 then
        integrateStation (s.stats i) (s.queues i) (s.server_busy i)
          (s.clock - s.last_update)
      else s.stats i := by
  simp only [preState, updateAccumulators, h, Bool.false_eq_true, if_false]

theorem preState_stats_counts (s : SimState) (e : Event) (rest : List Event)
    (i : Nat) :
    ((preState s e rest).stats i).Arrivals = (s.stats i).Arrivals ∧
    ((preState s e rest).stats i).Departures = (s.stats i).Departures := by
  simp only [preState, updateAccumulators]
  split
  · exact ⟨rfl, rfl⟩
  · simp only []
    split
    · exact ⟨rfl, rfl⟩
    · exact ⟨rfl, rfl⟩

theorem initState_eq (r : Rand) :
    initState r =
      { clock := 0,
        events := [{ time := r.expo r.ecount LAMBDA_SOURCE_RATE,
                     type := EType.ARRIVAL,
                     customer := { id := 1, arrival_time := 0 }, queue_id := 1 }],
        queues := fun _ => [], server_busy := fun _ => false,
        stats := fun _ => StationStats.zero,
        completed_count := 0, total_response_time := 0, last_update := 0,
        cust_counter := 1, warmup_count := 0, is_warming_up := true,
        steady_start_time := 0,
        rand := { r with ecount := r.ecount + 1 } } := by
  simp only [initState, schedule, Rand.nextExpo, insertEvent]

/-- Case analysis for a successful `step`: the popped event is the head of
the event list, the completion target is not yet reached, and the result
state is the dispatched handler applied to the common pre-state. -/
theorem step_some_cases {w m : Nat} {s : SimState} {e : Event} {s2 : SimState}
    (h : step w m s = some (e, s2)) :
    ∃ rest, s.events = e :: rest ∧ s.completed_count < m ∧
      ((e.type = EType.ARRIVAL ∧
          s2 = externalSpawn (handleArrival (preState s e rest) e) e) ∨
       (e.type = EType.DEPARTURE ∧
          s2 = handleDeparture w (preState s e rest) e)) := by
  rcases hev : s.events with _ | ⟨a, l⟩
  · rw [step, hev] at h
    simp at h
  · rw [step, hev] at h
    by_cases hc : m ≤ s.completed_count
    · simp only [if_pos hc] at h
      simp at h
    · rcases ht : a.type with _ | _
      · simp only [if_neg hc, ht, Option.some.injEq, Prod.mk.injEq] at h
        rcases h with ⟨rfl, rfl⟩
        exact ⟨l, rfl, lt_of_not_le hc, Or.inl ⟨ht, rfl⟩⟩
      · simp only [if_neg hc, ht, Option.some.injEq, Prod.mk.injEq] at h
        rcases h with ⟨rfl, rfl⟩
        exact ⟨l, rfl, lt_of_not_le hc, Or.inr ⟨ht, rfl⟩⟩

theorem handleArrival_stats_L (s : SimState) (e : Event) (i : Nat) :
    ((handleArrival s e).stats i).L_accum = (s.stats i).L_accum := by
  rw [handleArrival_stats]
  by_cases h : i = e.queue_id
  · subst h; simp [upd]
  · simp [upd, h]

theorem handleArrival_stats_Q (s : SimState) (e : Event) (i : Nat) :
    ((handleArrival s e).stats i).Q_accum = (s.stats i).Q_accum := by
  rw [handleArrival_stats]
  by_cases h : i = e.queue_id
  · subst h; simp [upd]
  · simp [upd, h]

theorem handleArrival_stats_B (s : SimState) (e : Event) (i : Nat) :
    ((handleArrival s e).stats i).Busy_accum = (s.stats i).Busy_accum := by
  rw [handleArrival_stats]
  by_cases h : i = e.queue_id
  · subst h; simp [upd]
  · simp [upd, h]

theorem handleArrival_stats_D (s : SimState) (e : Event) (i : Nat) :
    ((handleArrival s e).stats i).Departures = (s.stats i).Departures := by
  rw [handleArrival_stats]
  by_cases h : i = e.queue_id
  · subst h; simp [upd]
  · simp [upd, h]

theorem handleArrival_stats_A (s : SimState) (e : Event) (i : Nat) :
    ((handleArrival s e).stats i).Arrivals =
      if i = e.queue_id then (s.stats i).Arrivals + 1
      else (s.stats i).Arrivals := by
  rw [handleArrival_stats]
  by_cases h : i = e.queue_id
  · subst h; simp [upd]
  · simp [upd, h]

theorem midDeparture_stats_L (s : SimState) (q : Nat) (r : List Customer)
    (i : Nat) :
    ((midDeparture s q r).stats i).L_accum = (s.stats i).L_accum := by
  by_cases h : i = q
  · subst h; simp [midDeparture, upd]
  · simp [midDeparture, upd, h]

theorem midDeparture_stats_Q (s : SimState) (q : Nat) (r : List Customer)
    (i : Nat) :
    ((midDeparture s q r).stats i).Q_accum = (s.stats i).Q_accum := by
  by_cases h : i = q
  · subst h; simp [midDeparture, upd]
  · simp [midDeparture, upd, h]

theorem midDeparture_stats_B (s : SimState) (q : Nat) (r : List Customer)
    (i : Nat) :
    ((midDeparture s q r).stats i).Busy_accum = (s.stats i).Busy_accum := by
  by_cases h : i = q
  · subst h; simp [midDeparture, upd]
  · simp [midDeparture, upd, h]

theorem midDeparture_stats_A (s : SimState) (q : Nat) (r : List Customer)
    (i : Nat) :
    ((midDeparture s q r).stats i).Arrivals = (s.stats i).Arrivals := by
  by_cases h : i = q
  · subst h; simp [midDeparture, upd]
  · simp [midDeparture, upd, h]

theorem midDeparture_stats_D (s : SimState) (q : Nat) (r : List Customer)
    (i : Nat) :
    ((midDeparture s q r).stats i).Departures =
      if i = q then (s.stats i).Departures + 1 else (s.stats i).Departures := by
  by_cases h : i = q
  · subst h; simp [midDeparture, upd]
  · simp [midDeparture, upd, h]

theorem externalSpawn_clock (s : SimState) (e : Event) :
    (externalSpawn s e).clock = s.clock := by
  simp only [externalSpawn, schedule]
  split <;> rfl

theorem externalSpawn_queues (s : SimState) (e : Event) :
    (externalSpawn s e).queues = s.queues := by
  simp only [externalSpawn, schedule]
  split <;> rfl

theorem externalSpawn_busy (s : SimState) (e : Event) :
    (externalSpawn s e).server_busy = s.server_busy := by
  simp only [externalSpawn, schedule]
  split <;> rfl

theorem externalSpawn_stats (s : SimState) (e : Event) :
    (externalSpawn s e).stats = s.stats := by
  simp only [externalSpawn, schedule]
  split <;> rfl

theorem externalSpawn_completed (s : SimState) (e : Event) :
    (externalSpawn s e).completed_count = s.completed_count := by
  simp only [externalSpawn, schedule]
  split <;> rfl

theorem externalSpawn_trt (s : SimState) (e : Event) :
    (externalSpawn s e).total_response_time = s.total_response_time := by
  simp only [externalSpawn, schedule]
  split <;> rfl

theorem externalSpawn_last_update (s : SimState) (e : Event) :
    (externalSpawn s e).last_update = s.last_update := by
  simp only [externalSpawn, schedule]
  split <;> rfl

theorem externalSpawn_warmup_count (s : SimState) (e : Event) :
    (externalSpawn s e).warmup_count = s.warmup_count := by
  simp only [externalSpawn, schedule]
  split <;> rfl

theorem externalSpawn_warming (s : SimState) (e : Event) :
    (externalSpawn s e).is_warming_up = s.is_warming_up := by
  simp only [externalSpawn, schedule]
  split <;> rfl

theorem externalSpawn_steady (s : SimState) (e : Event) :
    (externalSpawn s e).steady_start_time = s.steady_start_time := by
  simp only [externalSpawn, schedule]
  split <;> rfl

theorem externalSpawn_expo (s : SimState) (e : Event) :
    (externalSpawn s e).rand.expo = s.rand.expo := by
  simp only [externalSpawn, schedule, Rand.nextExpo]
  split <;> rfl

theorem externalSpawn_unif (s : SimState) (e : Event) :
    (externalSpawn s e).rand.unif = s.rand.unif := by
  simp only [externalSpawn, schedule, Rand.nextExpo]
  split <;> rfl

theorem restartService_stats (s : SimState) (q : Nat) :
    (restartService s q).stats = s.stats := by
  simp only [restartService, schedule, Rand.nextExpo]
  split <;> rfl

theorem restartService_queues (s : SimState) (q : Nat) :
    (restartService s q).queues = s.queues := by
  simp only [restartService, schedule, Rand.nextExpo]
  split <;> rfl

theorem restartService_clock (s : SimState) (q : Nat) :
    (restartService s q).clock = s.clock := by
  simp only [restartService, schedule, Rand.nextExpo]
  split <;> rfl

theorem restartService_completed (s : SimState) (q : Nat) :
    (restartService s q).completed_count = s.completed_count := by
  simp only [restartService, schedule, Rand.nextExpo]
  split <;> rfl

theorem restartService_trt (s : SimState) (q : Nat) :
    (restartService s q).total_response_time = s.total_response_time := by
  simp only [restartService, schedule, Rand.nextExpo]
  split <;> rfl

theorem restartService_last_update (s : SimState) (q : Nat) :
    (restartService s q).last_update = s.last_update := by
  simp only [restartService, schedule, Rand.nextExpo]
  split <;> rfl

theorem restartService_cust_counter (s : SimState) (q : Nat) :
    (restartService s q).cust_counter = s.cust_counter := by
  simp only [restartService, schedule, Rand.nextExpo]
  split <;> rfl

theorem restartService_warmup_count (s : SimState) (q : Nat) :
    (restartService s q).warmup_count = s.warmup_count := by
  simp only [restartService, schedule, Rand.nextExpo]
  split <;> rfl

theorem restartService_warming (s : SimState) (q : Nat) :
    (restartService s q).is_warming_up = s.is_warming_up := by
  simp only [restartService, schedule, Rand.nextExpo]
  split <;> rfl

theorem restartService_steady (s : SimState) (q : Nat) :
    (restartService s q).steady_start_time = s.steady_start_time := by
  simp only [restartService, schedule, Rand.nextExpo]
  split <;> rfl

theorem restartService_expo (s : SimState) (q : Nat) :
    (restartService s q).rand.expo = s.rand.expo := by
  simp only [restartService, schedule, Rand.nextExpo]
  split <;> rfl

theorem restartService_unif (s : SimState) (q : Nat) :
    (restartService s q).rand.unif = s.rand.unif := by
  simp only [restartService, schedule, Rand.nextExpo]
  split <;> rfl

theorem exitUpdate_clock (w : Nat) (s : SimState) (c : Customer) :
    (exitUpdate w s c).clock = s.clock := by
  simp only [exitUpdate, resetStatsPostWarmup]
  split
  · split <;> rfl
  · rfl

theorem exitUpdate_cust_counter (w : Nat) (s : SimState) (c : Customer) :
    (exitUpdate w s c).cust_counter = s.cust_counter := by
  simp only [exitUpdate, resetStatsPostWarmup]
  split
  · split <;> rfl
  · rfl

theorem exitUpdate_events (w : Nat) (s : SimState) (c : Customer) :
    (exitUpdate w s c).events = s.events := by
  simp only [exitUpdate, resetStatsPostWarmup]
  split
  · split <;> rfl
  · rfl

theorem exitUpdate_queues (w : Nat) (s : SimState) (c : Customer) :
    (exitUpdate w s c).queues = s.queues := by
  simp only [exitUpdate, resetStatsPostWarmup]
  split
  · split <;> rfl
  · rfl

theorem exitUpdate_busy (w : Nat) (s : SimState) (c : Customer) :
    (exitUpdate w s c).server_busy = s.server_busy := by
  simp only [exitUpdate, resetStatsPostWarmup]
  split
  · split <;> rfl
  · rfl

theorem exitUpdate_rand (w : Nat) (s : SimState) (c : Customer) :
    (exitUpdate w s c).rand = s.rand := by
  simp only [exitUpdate, resetStatsPostWarmup]
  split
  · split <;> rfl
  · rfl

theorem handleDeparture_clock (w : Nat) (s : SimState) (e : Event) :
    (handleDeparture w s e).clock = s.clock := by
  rcases hq : s.queues e.queue_id with _ | ⟨c, r0⟩
  · rw [handleDeparture_nil hq]
  · rw [handleDeparture_cons hq]
    rcases hr : routeOf e.queue_id (s.rand.unif s.rand.ucount) with _ | nq
    · simp only [hr, restartService_clock, exitUpdate_clock, midDeparture]
    · simp only [hr, restartService_clock, handleArrival_clock, midDeparture]

theorem handleDeparture_cust_counter (w : Nat) (s : SimState) (e : Event) :
    (handleDeparture w s e).cust_counter = s.cust_counter := by
  rcases hq : s.queues e.queue_id with _ | ⟨c, r0⟩
  · rw [handleDeparture_nil hq]
  · rw [handleDeparture_cons hq]
    rcases hr : routeOf e.queue_id (s.rand.unif s.rand.ucount) with _ | nq
    · simp only [hr, restartService_cust_counter, exitUpdate_cust_counter,
        midDeparture]
    · simp only [hr, restartService_cust_counter, handleArrival_cust_counter,
        midDeparture]

theorem handleDeparture_expo (w : Nat) (s : SimState) (e : Event) :
    (handleDeparture w s e).rand.expo = s.rand.expo := by
  rcases hq : s.queues e.queue_id with _ | ⟨c, r0⟩
  · rw [handleDeparture_nil hq]
  · rw [handleDeparture_cons hq]
    rcases hr : routeOf e.queue_id (s.rand.unif s.rand.ucount) with _ | nq
    · simp only [hr, restartService_expo, exitUpdate_rand, midDeparture]
    · simp only [hr, restartService_expo, handleArrival_expo, midDeparture]

theorem handleDeparture_unif (w : Nat) (s : SimState) (e : Event) :
    (handleDeparture w s e).rand.unif = s.rand.unif := by
  rcases hq : s.queues e.queue_id with _ | ⟨c, r0⟩
  · rw [handleDeparture_nil hq]
  · rw [handleDeparture_cons hq]
    rcases hr : routeOf e.queue_id (s.rand.unif s.rand.ucount) with _ | nq
    · simp only [hr, restartService_unif, exitUpdate_rand, midDeparture]
    · simp only [hr, restartService_unif, handleArrival_unif, midDeparture]

/-- Dichotomy for `handle_departure`: either the warm-up statistics reset did
not fire during it (warming flag, time integrals, `last_update` and
`steady_start_time` are untouched), or it did, in which case the flag flips
from warming to not-warming and the statistics come out zeroed with
`last_update` and `steady_start_time` stamped to the (unchanged) clock. -/
theorem handleDeparture_cases (w : Nat) (s : SimState) (e : Event) :
    ((handleDeparture w s e).is_warming_up = s.is_warming_up ∧
     (∀ i, ((handleDeparture w s e).stats i).L_accum = (s.stats i).L_accum ∧
           ((handleDeparture w s e).stats i).Q_accum = (s.stats i).Q_accum ∧
           ((handleDeparture w s e).stats i).Busy_accum = (s.stats i).Busy_accum) ∧
     (handleDeparture w s e).last_update = s.last_update ∧
     (handleDeparture w s e).steady_start_time = s.steady_start_time ∧
     s.warmup_count ≤ (handleDeparture w s e).warmup_count)
    ∨
    (s.is_warming_up = true ∧ (handleDeparture w s e).is_warming_up = false ∧
     (∀ i, (handleDeparture w s e).stats i = StationStats.zero) ∧
     (handleDeparture w s e).last_update = s.clock ∧
     (handleDeparture w s e).steady_start_time = s.clock ∧
     (handleDeparture w s e).completed_count = 0 ∧
     (handleDeparture w s e).total_response_time = 0 ∧
     (handleDeparture w s e).warmup_count = s.warmup_count + 1 ∧
     w ≤ s.warmup_count + 1) := by
  rcases hq : s.queues e.queue_id with _ | ⟨c, r0⟩
  · left
    rw [handleDeparture_nil hq]
    exact ⟨rfl, fun i => ⟨rfl, rfl, rfl⟩, rfl, rfl, le_refl _⟩
  · rw [handleDeparture_cons hq]
    rcases hr : routeOf e.queue_id (s.rand.unif s.rand.ucount) with _ | nq
    · simp only [hr]
      by_cases hw : s.is_warming_up = true
      · by_cases hcnt : w ≤ s.warmup_count + 1
        · right
          rw [exitUpdate_reset
            (show (midDeparture s e.queue_id r0).is_warming_up = true from hw)
            (show w ≤ (midDeparture s e.queue_id r0).warmup_count + 1 from hcnt)]
          refine ⟨hw, ?_, fun i => ?_, ?_, ?_, ?_, ?_, ?_, ?_⟩
          · rw [restartService_warming]; rfl
          · rw [restartService_stats]; rfl
          · rw [restartService_last_update]; rfl
          · rw [restartService_steady]; rfl
          · rw [restartService_completed]; rfl
          · rw [restartService_trt]; rfl
          · rw [restartService_warmup_count]; rfl
          · exact hcnt
        · left
          rw [exitUpdate_warm
            (show (midDeparture s e.queue_id r0).is_warming_up = true from hw)
            (show ¬ w ≤ (midDeparture s e.queue_id r0).warmup_count + 1 from hcnt)]
          refine ⟨?_, fun i => ?_, ?_, ?_, ?_⟩
          · rw [restartService_warming]; rfl
          · rw [restartService_stats]
            exact ⟨midDeparture_stats_L s e.queue_id r0 i,
                   midDeparture_stats_Q s e.queue_id r0 i,
                   midDeparture_stats_B s e.queue_id r0 i⟩
          · rw [restartService_last_update]; rfl
          · rw [restartService_steady]; rfl
          · rw [restartService_warmup_count]
            exact Nat.le_succ _
      · left
        have hw2 : s.is_warming_up = false := by
          revert hw
          cases s.is_warming_up <;> simp
        rw [exitUpdate_done
          (show (midDeparture s e.queue_id r0).is_warming_up = false from hw2)]
        refine ⟨?_, fun i => ?_, ?_, ?_, ?_⟩
        · rw [restartService_warming]; rfl
        · rw [restartService_stats]
          exact ⟨midDeparture_stats_L s e.queue_id r0 i,
                 midDeparture_stats_Q s e.queue_id r0 i,
                 midDeparture_stats_B s e.queue_id r0 i⟩
        · rw [restartService_last_update]; rfl
        · rw [restartService_steady]; rfl
        · rw [restartService_warmup_count]
          exact le_refl _
    · left
      simp only [hr]
      refine ⟨?_, ?_, ?_, ?_, ?_⟩
      · rw [restartService_warming, handleArrival_warming]; rfl
      · intro i
        rw [restartService_stats]
        refine ⟨?_, ?_, ?_⟩
        · rw [handleArrival_stats_L]
          exact midDeparture_stats_L s e.queue_id r0 i
        · rw [handleArrival_stats_Q]
          exact midDeparture_stats_Q s e.queue_id r0 i
        · rw [handleArrival_stats_B]
          exact midDeparture_stats_B s e.queue_id r0 i
      · rw [restartService_last_update, handleArrival_last_update]; rfl
      · rw [restartService_steady, handleArrival_steady]; rfl
      · rw [restartService_warmup_count, handleArrival_warmup_count]
        exact le_refl _

/-- C2 (amended): for every step that processes an event at time `t`, the
accumulators are integrated over the interval from `last_update` to the
*pre-step* clock — the interval that ended at the previous event — using the
pre-step network state (equivalently, the state before the popped event is
applied), because `update_accumulators` runs before the clock advances; the
interval from the previous event's time up to `t` is left to the following
step.  During warm-up no integration occurs, and if this step's handler
fires the warm-up reset (the warming flag flips) the accumulators come out
zeroed with `last_update` stamped to `t` instead. -/
theorem c2_integration_lags_one_event {w m : Nat} {s : SimState} {e : Event}
    {s2 : SimState} (h : step w m s = some (e, s2)) (i : Nat)
    (hi1 : 1 ≤ i) (hi4 : i ≤ 4) :
    s2.clock = e.time ∧
    (s2.last_update =
      if s.is_warming_up = true ∧ s2.is_warming_up = false then e.time
      else s.clock) ∧
    ((s2.stats i).L_accum =
      if s.is_warming_up = true ∧ s2.is_warming_up = false then 0
      else (s.stats i).L_accum +
        (if s.is_warming_up = true then 0
         else ((s.queues i).length : ℚ) * (s.clock - s.last_update))) ∧
    ((s2.stats i).Q_accum =
      if s.is_warming_up = true ∧ s2.is_warming_up = false then 0
      else (s.stats i).Q_accum +
        (if s.is_warming_up = true then 0
         else (if s.server_busy i then max (((s.queues i).length : ℚ) - 1) 0
               else 0) * (s.clock - s.last_update))) ∧
    ((s2.stats i).Busy_accum =
      if s.is_warming_up = true ∧ s2.is_warming_up = false then 0
      else (s.stats i).Busy_accum +
        (if s.is_warming_up = true then 0
         else if s.server_busy i then s.clock - s.last_update else 0)) := by
  rcases step_some_cases h with ⟨rest, hev, hc, hbr⟩
  rcases hbr with ⟨ht, rfl⟩ | ⟨ht, rfl⟩
  · -- ARRIVAL: no reset can fire
    have hwpre :
        (externalSpawn (handleArrival (preState s e rest) e) e).is_warming_up =
          s.is_warming_up := by
      rw [externalSpawn_warming, handleArrival_warming, preState_warming]
    have hRF : ¬ (s.is_warming_up = true ∧
        (externalSpawn (handleArrival (preState s e rest) e) e).is_warming_up
          = false) := by
      rw [hwpre]
      rintro ⟨h1, h2⟩
      rw [h1] at h2
      exact absurd h2 (by decide)
    refine ⟨?_, ?_, ?_, ?_, ?_⟩
    · rw [externalSpawn_clock, handleArrival_clock, preState_clock]
    · rw [if_neg hRF, externalSpawn_last_update, handleArrival_last_update,
        preState_last_update]
    · rw [if_neg hRF, externalSpawn_stats, handleArrival_stats_L]
      rcases hwu : s.is_warming_up with _ | _
      · rw [preState_stats_main e rest hwu]
        simp only [if_pos (And.intro hi1 hi4), integrateStation,
          Bool.false_eq_true, if_false]
      · rw [preState_stats_warm e rest hwu]
        simp
    · rw [if_neg hRF, externalSpawn_stats, handleArrival_stats_Q]
      rcases hwu : s.is_warming_up with _ | _
      · rw [preState_stats_main e rest hwu]
        simp only [if_pos (And.intro hi1 hi4), integrateStation,
          Bool.false_eq_true, if_false]
      · rw [preState_stats_warm e rest hwu]
        simp
    · rw [if_neg hRF, externalSpawn_stats, handleArrival_stats_B]
      rcases hwu : s.is_warming_up with _ | _
      · rw [preState_stats_main e rest hwu]
        simp only [if_pos (And.intro hi1 hi4), integrateStation,
          Bool.false_eq_true, if_false]
      · rw [preState_stats_warm e rest hwu]
        simp
  · -- DEPARTURE: use the reset dichotomy
    rcases handleDeparture_cases w (preState s e rest) e with
      ⟨hwm, hst, hlu, _, _⟩ | ⟨hwm1, hwm2, hst, hlu, _, _, _, _, _⟩
    · have hwpre : (handleDeparture w (preState s e rest) e).is_warming_up =
          s.is_warming_up := by
        rw [hwm, preState_warming]
      have hRF : ¬ (s.is_warming_up = true ∧
          (handleDeparture w (preState s e rest) e).is_warming_up = false) := by
        rw [hwpre]
        rintro ⟨h1, h2⟩
        rw [h1] at h2
        exact absurd h2 (by decide)
      refine ⟨?_, ?_, ?_, ?_, ?_⟩
      · rw [handleDeparture_clock, preState_clock]
      · rw [if_neg hRF, hlu, preState_last_update]
      · rw [if_neg hRF, (hst i).1]
        rcases hwu : s.is_warming_up with _ | _
        · rw [preState_stats_main e rest hwu]
          simp only [if_pos (And.intro hi1 hi4), integrateStation,
            Bool.false_eq_true, if_false]
        · rw [preState_stats_warm e rest hwu]
          simp
      · rw [if_neg hRF, (hst i).2.1]
        rcases hwu : s.is_warming_up with _ | _
        · rw [preState_stats_main e rest hwu]
          simp only [if_pos (And.intro hi1 hi4), integrateStation,
            Bool.false_eq_true, if_false]
        · rw [preState_stats_warm e rest hwu]
          simp
      · rw [if_neg hRF, (hst i).2.2]
        rcases hwu : s.is_warming_up with _ | _
        · rw [preState_stats_main e rest hwu]
          simp only [if_pos (And.intro hi1 hi4), integrateStation,
            Bool.false_eq_true, if_false]
        · rw [preState_stats_warm e rest hwu]
          simp
    · have hsw : s.is_warming_up = true := by
        rw [preState_warming] at hwm1
        exact hwm1
      have hRF : s.is_warming_up = true ∧
          (handleDeparture w (preState s e rest) e).is_warming_up = false :=
        ⟨hsw, hwm2⟩
      refine ⟨?_, ?_, ?_, ?_, ?_⟩
      · rw [handleDeparture_clock, preState_clock]
      · rw [if_pos hRF, hlu, preState_clock]
      · rw [if_pos hRF, hst i]; rfl
      · rw [if_pos hRF, hst i]; rfl
      · rw [if_pos hRF, hst i]; rfl

/-- C4 (amended): a customer record's `arrival_time` is the clock value at
the moment the record is created, which is one interarrival draw before the
customer actually enters the network: the seed customer carries
`arrival_time = 0` although its ARRIVAL event is scheduled at the first
interarrival draw, and the external arrival processed at clock `t` creates
the next customer with `arrival_time = t` while scheduling its ARRIVAL event
at `t` plus the next interarrival draw. -/
theorem c4_arrival_time_is_creation_time :
    (∀ r : Rand, (initState r).events =
      [{ time := r.expo r.ecount LAMBDA_SOURCE_RATE, type := EType.ARRIVAL,
         customer := { id := 1, arrival_time := 0 }, queue_id := 1 }]) ∧
    ∀ (w m : Nat) (s : SimState) (e : Event) (s2 : SimState),
      step w m s = some (e, s2) → e.type = EType.ARRIVAL → e.queue_id = 1 →
      e.customer.id = s.cust_counter →
      s2.cust_counter = s.cust_counter + 1 ∧
      ({ time := e.time + s.rand.expo
           (if s.server_busy 1 = true then s.rand.ecount else s.rand.ecount + 1)
           LAMBDA_SOURCE_RATE,
         type := EType.ARRIVAL,
         customer := { id := s.cust_counter + 1, arrival_time := e.time },
         queue_id := 1 } : Event) ∈ s2.events := by
  constructor
  · intro r
    rw [initState_eq]
  · intro w m s e s2 h htyp hq1 hid
    rcases step_some_cases h with ⟨rest, hev, hc, hbr⟩
    rcases hbr with ⟨ht, rfl⟩ | ⟨ht, rfl⟩
    · have hid2 : e.customer.id =
          (handleArrival (preState s e rest) e).cust_counter := by
        rw [handleArrival_cust_counter, preState_cust_counter]
        exact hid
      rw [externalSpawn_hit hq1 hid2]
      constructor
      · show (handleArrival (preState s e rest) e).cust_counter + 1 =
          s.cust_counter + 1
        rw [handleArrival_cust_counter, preState_cust_counter]
      · show _ ∈ insertEvent (handleArrival (preState s e rest) e).events _
        refine mem_insertEvent.2 (Or.inr ?_)
        rw [handleArrival_clock, preState_clock, handleArrival_expo,
          preState_rand, handleArrival_ecount, preState_rand, preState_busy,
          handleArrival_cust_counter, preState_cust_counter, hq1]
    · rw [ht] at htyp
      exact absurd htyp (by simp)

/-- Witness for C2 (amended): the ninth step of the deterministic trace run
(station 1, departure at time 7/2). -/
theorem c2_integration_lags_one_event_witness :
    (stubState9.stats 1).L_accum =
      if stubState8.is_warming_up = true ∧ stubState9.is_warming_up = false
      then 0
      else (stubState8.stats 1).L_accum +
        (if stubState8.is_warming_up = true then 0
         else ((stubState8.queues 1).length : ℚ) *
           (stubState8.clock - stubState8.last_update)) :=
  (c2_integration_lags_one_event
    (show step 0 5 stubState8 =
        some ({ time := 7/2, type := EType.DEPARTURE,
                customer := { id := 3, arrival_time := 2 }, queue_id := 1 },
              stubState9) from by with_unfolding_all rfl)
    1 (by decide) (by decide)).2.2.1

/-- Witness for C4 (amended): the first step of the deterministic trace run
creates customer 2 with `arrival_time = 1` (the clock at creation) and
schedules its ARRIVAL at time 2. -/
theorem c4_arrival_time_is_creation_time_witness :
    ({ time := 2, type := EType.ARRIVAL,
       customer := { id := 2, arrival_time := 1 }, queue_id := 1 } : Event)
      ∈ stubState1.events := by
  with_unfolding_all
    exact (c4_arrival_time_is_creation_time.2 0 5 (initState stubRand)
      { time := 1, type := EType.ARRIVAL,
        customer := { id := 1, arrival_time := 0 }, queue_id := 1 }
      stubState1 (by with_unfolding_all rfl) rfl rfl
      (by with_unfolding_all rfl)).2

/-! ### Reachable-state invariants -/

/-- Conservation: per station, arrivals counted = departures counted plus
customers currently present. -/
def consInv (s : SimState) : Prop :=
  ∀ i, (s.stats i).Arrivals = (s.stats i).Departures + (s.queues i).length

/-- All time-integral accumulators are zero. -/
def accumZero (s : SimState) : Prop :=
  ∀ i, (s.stats i).L_accum = 0 ∧ (s.stats i).Q_accum = 0 ∧
    (s.stats i).Busy_accum = 0

/-- The server/departure-event invariant at station `i`: a busy server means
a non-empty queue with exactly one pending DEPARTURE event, which is for the
head customer; an idle server means an empty queue and no pending DEPARTURE
event. -/
def busyAt (s : SimState) (i : Nat) : Prop :=
  (s.server_busy i = true →
    ∃ c r, s.queues i = c :: r ∧
      s.events.countP (isDep i) = 1 ∧
      ∀ e ∈ s.events, isDep i e = true → e.customer = c) ∧
  (s.server_busy i = false →
    s.queues i = [] ∧ s.events.countP (isDep i) = 0)

/-- All `expovariate` oracle values are non-negative. -/
def expoNN (s : SimState) : Prop := ∀ n r, 0 ≤ s.rand.expo n r

/-- The pending events are sorted by time and all lie at or after the clock. -/
def timeInv (s : SimState) : Prop :=
  s.events.Pairwise (fun a b => a.time ≤ b.time) ∧
  ∀ e ∈ s.events, s.clock ≤ e.time

/-- Exactly one pending ARRIVAL event, the next external arrival at
station 1 bearing the current customer-counter id. -/
def arrInv (s : SimState) : Prop :=
  s.events.countP isArr = 1 ∧
  ∀ e ∈ s.events, e.type = EType.ARRIVAL →
    e.queue_id = 1 ∧ e.customer.id = s.cust_counter

/-- The inductive invariant of reachable engine states. -/
def Inv (w : Nat) (s : SimState) : Prop :=
  (s.is_warming_up = true → consInv s) ∧
  (s.is_warming_up = true → accumZero s) ∧
  (s.is_warming_up = false → w ≤ s.warmup_count) ∧
  (∀ i, busyAt s i) ∧
  (expoNN s → timeInv s) ∧
  arrInv s

theorem routeOf_ne {q : Nat} {r : ℚ} {nq : Nat} (h : routeOf q r = some nq) :
    nq ≠ q := by
  unfold routeOf at h
  split_ifs at h <;> simp_all <;> omega

/-- Transfer `busyAt` along a state change that leaves station `i`'s queue
and busy flag and the station-`i` departure events untouched. -/
theorem busyAt_transfer {s1 s2 : SimState} {i : Nat}
    (hq : s2.queues i = s1.queues i)
    (hb : s2.server_busy i = s1.server_busy i)
    (hcount : s2.events.countP (isDep i) = s1.events.countP (isDep i))
    (hmem : ∀ x ∈ s2.events, isDep i x = true → x ∈ s1.events)
    (h : busyAt s1 i) : busyAt s2 i := by
  constructor
  · intro hbusy
    rcases h.1 (hb ▸ hbusy) with ⟨c, r, hq1, hc1, hm1⟩
    exact ⟨c, r, hq ▸ hq1, hcount ▸ hc1, fun e he hd => hm1 e (hmem e he hd) hd⟩
  · intro hidle
    rcases h.2 (hb ▸ hidle) with ⟨h1, h2⟩
    exact ⟨hq ▸ h1, hcount ▸ h2⟩

theorem isDep_false_of_arr {i : Nat} {e : Event}
    (h : e.type = EType.ARRIVAL) : isDep i e = false := by
  simp [isDep, h]

theorem isDep_false_of_ne {i : Nat} {e : Event} (h : e.queue_id ≠ i) :
    isDep i e = false := by
  simp [isDep, h]

theorem isArr_false_of_dep {e : Event} (h : e.type = EType.DEPARTURE) :
    isArr e = false := by
  simp [isArr, h]

/-- `busyAt` is preserved by `handle_arrival` at every station. -/
theorem busyAt_handleArrival {s : SimState} {ev : Event} (i : Nat)
    (h : busyAt s i) : busyAt (handleArrival s ev) i := by
  have hq := handleArrival_queues s ev
  have hbz := handleArrival_busy s ev
  have hevs := handleArrival_events s ev
  by_cases hiq : i = ev.queue_id
  · rw [← hiq] at hq hbz hevs
    rcases hb : s.server_busy i with _ | _
    · -- the target server was idle: its queue was empty and a DEPARTURE for
      -- the arriving customer is scheduled
      have hbne : ¬ (s.server_busy i = true) := by simp [hb]
      rcases h.2 hb with ⟨hnil, hcnt0⟩
      constructor
      · intro _
        refine ⟨ev.customer, [], ?_, ?_, ?_⟩
        · rw [hq, upd_same, hnil]
          rfl
        · rw [hevs, if_neg hbne, countP_insertEvent, hcnt0]
          simp [isDep]
        · intro x hx hdx
          rw [hevs, if_neg hbne] at hx
          rcases mem_insertEvent.1 hx with hx | rfl
          · exact absurd hdx (List.countP_eq_zero.1 hcnt0 x hx)
          · rfl
      · intro hbf
        rw [hbz, if_neg hbne, upd_same] at hbf
        exact absurd hbf (by decide)
    · -- the target server stays busy: customer appended at the tail
      rcases h.1 hb with ⟨c, r, hq1, hc1, hm1⟩
      constructor
      · intro _
        refine ⟨c, r ++ [ev.customer], ?_, ?_, ?_⟩
        · rw [hq, upd_same, hq1]
          rfl
        · rw [hevs, if_pos hb]
          exact hc1
        · intro x hx hdx
          rw [hevs, if_pos hb] at hx
          exact hm1 x hx hdx
      · intro hbf
        rw [hbz, if_pos hb, hb] at hbf
        exact absurd hbf (by decide)
  · -- any other station is untouched
    have hne : ev.queue_id ≠ i := fun hh => hiq hh.symm
    refine busyAt_transfer ?_ ?_ ?_ ?_ h
    · rw [hq, upd_ne _ _ _ _ hiq]
    · rw [hbz]
      split
      · rfl
      · rw [upd_ne _ _ _ _ hiq]
    · rw [hevs]
      split
      · rfl
      · rw [countP_insertEvent]
        simp [isDep, hne]
    · intro x hx hdx
      rw [hevs] at hx
      revert hx
      split
      · exact fun hx => hx
      · intro hx
        rcases mem_insertEvent.1 hx with hx | rfl
        · exact hx
        · exact absurd hdx (by simp [isDep, hne])

/-- After `restartService` the invariant holds at the restarted station,
provided no departure event for it is pending. -/
theorem busyAt_restartService_self {s : SimState} {q : Nat}
    (h0 : s.events.countP (isDep q) = 0) : busyAt (restartService s q) q := by
  rcases hq2 : s.queues q with _ | ⟨c2, t⟩
  · rw [restartService_nil hq2]
    constructor
    · intro hbusy
      have : upd s.server_busy q false q = true := hbusy
      rw [upd_same] at this
      exact absurd this (by decide)
    · intro _
      exact ⟨hq2, h0⟩
  · rw [restartService_cons hq2]
    constructor
    · intro _
      refine ⟨c2, t, hq2, ?_, ?_⟩
      · show (insertEvent s.events _).countP _ = 1
        rw [countP_insertEvent, h0]
        simp [isDep]
      · intro x hx hdx
        rcases mem_insertEvent.1 hx with hx | rfl
        · exact absurd hdx (List.countP_eq_zero.1 h0 x hx)
        · rfl
    · intro hbf
      have : upd s.server_busy q true q = false := hbf
      rw [upd_same] at this
      exact absurd this (by decide)

/-- `restartService` leaves every other station's invariant intact. -/
theorem busyAt_restartService_ne {s : SimState} {q : Nat} (i : Nat)
    (hne : i ≠ q) (h : busyAt s i) : busyAt (restartService s q) i := by
  have hqne : q ≠ i := fun hh => hne hh.symm
  rcases hq2 : s.queues q with _ | ⟨c2, t⟩
  · rw [restartService_nil hq2]
    refine busyAt_transfer ?_ ?_ ?_ ?_ h
    · rfl
    · exact upd_ne _ _ _ _ hne
    · rfl
    · exact fun x hx _ => hx
  · rw [restartService_cons hq2]
    refine busyAt_transfer ?_ ?_ ?_ ?_ h
    · rfl
    · exact upd_ne _ _ _ _ hne
    · show (insertEvent s.events _).countP _ = _
      rw [countP_insertEvent]
      simp [isDep, hqne]
    · intro x hx hdx
      rcases mem_insertEvent.1 hx with hx | rfl
      · exact hx
      · exact absurd hdx (by simp [isDep, hqne])

theorem busyAt_exitUpdate {w : Nat} {s : SimState} {c : Customer} (i : Nat)
    (h : busyAt s i) : busyAt (exitUpdate w s c) i := by
  refine busyAt_transfer ?_ ?_ ?_ ?_ h
  · rw [exitUpdate_queues]
  · rw [exitUpdate_busy]
  · rw [exitUpdate_events]
  · intro x hx _
    rw [exitUpdate_events] at hx
    exact hx

theorem busyAt_externalSpawn {s : SimState} {ev : Event} (i : Nat)
    (h : busyAt s i) : busyAt (externalSpawn s ev) i := by
  by_cases hc : ev.queue_id = 1 ∧ ev.customer.id = s.cust_counter
  · rw [externalSpawn_hit hc.1 hc.2]
    refine busyAt_transfer ?_ ?_ ?_ ?_ h
    · rfl
    · rfl
    · show (insertEvent s.events _).countP _ = _
      rw [countP_insertEvent]
      simp [isDep]
    · intro x hx hdx
      rcases mem_insertEvent.1 hx with hx | rfl
      · exact hx
      · exact absurd hdx (by simp [isDep])
  · rw [externalSpawn_miss hc]
    exact h

/-- Transfer `timeInv` along a state change preserving events and clock. -/
theorem timeInv_transfer {s1 s2 : SimState} (he : s2.events = s1.events)
    (hc : s2.clock = s1.clock) (h : timeInv s1) : timeInv s2 := by
  rw [timeInv, he, hc]
  exact h

theorem timeInv_handleArrival {s : SimState} {ev : Event} (hNN : expoNN s)
    (hT : timeInv s) : timeInv (handleArrival s ev) := by
  constructor
  · rw [handleArrival_events]
    split
    · exact hT.1
    · exact pairwise_insertEvent hT.1
  · intro x hx
    rw [handleArrival_clock]
    rw [handleArrival_events] at hx
    revert hx
    split
    · exact fun hx => hT.2 x hx
    · intro hx
      rcases mem_insertEvent.1 hx with hx | rfl
      · exact hT.2 x hx
      · exact le_add_of_nonneg_right (hNN _ _)

theorem timeInv_restartService {s : SimState} {q : Nat} (hNN : expoNN s)
    (hT : timeInv s) : timeInv (restartService s q) := by
  rcases hq2 : s.queues q with _ | ⟨c2, t⟩
  · rw [restartService_nil hq2]
    exact timeInv_transfer rfl rfl hT
  · rw [restartService_cons hq2]
    exact ⟨pairwise_insertEvent hT.1,
      lb_insertEvent hT.2 (le_add_of_nonneg_right (hNN _ _))⟩

theorem timeInv_exitUpdate {w : Nat} {s : SimState} {c : Customer}
    (hT : timeInv s) : timeInv (exitUpdate w s c) :=
  timeInv_transfer (exitUpdate_events w s c) (exitUpdate_clock w s c) hT

theorem timeInv_externalSpawn {s : SimState} {ev : Event} (hNN : expoNN s)
    (hT : timeInv s) : timeInv (externalSpawn s ev) := by
  by_cases hc : ev.queue_id = 1 ∧ ev.customer.id = s.cust_counter
  · rw [externalSpawn_hit hc.1 hc.2]
    exact ⟨pairwise_insertEvent hT.1,
      lb_insertEvent hT.2 (le_add_of_nonneg_right (hNN _ _))⟩
  · rw [externalSpawn_miss hc]
    exact hT

theorem expoNN_of {s1 s2 : SimState} (h : s2.rand.expo = s1.rand.expo)
    (hNN : expoNN s1) : expoNN s2 := fun n r => by
  rw [h]
  exact hNN n r

/-- A state change that adds no ARRIVAL-type events and keeps the customer
counter; `arrInv` transfers along it. -/
def arrCarrier (s1 s2 : SimState) : Prop :=
  s2.cust_counter = s1.cust_counter ∧
  s2.events.countP isArr = s1.events.countP isArr ∧
  ∀ x ∈ s2.events, isArr x = true → x ∈ s1.events

theorem arrCarrier_id {s1 s2 : SimState} (hc : s2.cust_counter = s1.cust_counter)
    (he : s2.events = s1.events) : arrCarrier s1 s2 := by
  refine ⟨hc, by rw [he], ?_⟩
  intro x hx _
  rw [he] at hx
  exact hx

theorem arrCarrier_trans {s1 s2 s3 : SimState} (h12 : arrCarrier s1 s2)
    (h23 : arrCarrier s2 s3) : arrCarrier s1 s3 :=
  ⟨h23.1.trans h12.1, h23.2.1.trans h12.2.1,
   fun x hx ha => h12.2.2 x (h23.2.2 x hx ha) ha⟩

theorem arrInv_of_carrier {s1 s2 : SimState} (h : arrInv s1)
    (hc : arrCarrier s1 s2) : arrInv s2 := by
  refine ⟨hc.2.1.trans h.1, ?_⟩
  intro e he ht
  have hmem := hc.2.2 e he (by simp [isArr, ht])
  rcases h.2 e hmem ht with ⟨hq1, hid⟩
  exact ⟨hq1, hc.1 ▸ hid⟩

theorem arrCarrier_handleArrival (s : SimState) (ev : Event) :
    arrCarrier s (handleArrival s ev) := by
  refine ⟨handleArrival_cust_counter s ev, ?_, ?_⟩
  · rw [handleArrival_events]
    split
    · rfl
    · rw [countP_insertEvent]
      simp [isArr]
  · intro x hx ha
    rw [handleArrival_events] at hx
    revert hx
    split
    · exact fun hx => hx
    · intro hx
      rcases mem_insertEvent.1 hx with hx | rfl
      · exact hx
      · exact absurd ha (by simp [isArr])

theorem arrCarrier_restartService (s : SimState) (q : Nat) :
    arrCarrier s (restartService s q) := by
  rcases hq2 : s.queues q with _ | ⟨c2, t⟩
  · rw [restartService_nil hq2]
    exact arrCarrier_id rfl rfl
  · rw [restartService_cons hq2]
    refine ⟨rfl, ?_, ?_⟩
    · show (insertEvent s.events _).countP _ = _
      rw [countP_insertEvent]
      simp [isArr]
    · intro x hx ha
      rcases mem_insertEvent.1 hx with hx | rfl
      · exact hx
      · exact absurd ha (by simp [isArr])

theorem arrCarrier_exitUpdate (w : Nat) (s : SimState) (c : Customer) :
    arrCarrier s (exitUpdate w s c) :=
  arrCarrier_id (exitUpdate_cust_counter w s c) (exitUpdate_events w s c)

theorem arrCarrier_handleDeparture (w : Nat) (s : SimState) (e : Event) :
    arrCarrier s (handleDeparture w s e) := by
  rcases hq2 : s.queues e.queue_id with _ | ⟨c, r0⟩
  · rw [handleDeparture_nil hq2]
    exact arrCarrier_id rfl rfl
  · rw [handleDeparture_cons hq2]
    rcases hr : routeOf e.queue_id (s.rand.unif s.rand.ucount) with _ | nq
    · simp only [hr]
      have h1 : arrCarrier s (midDeparture s e.queue_id r0) :=
        arrCarrier_id rfl rfl
      have h2 := arrCarrier_exitUpdate w (midDeparture s e.queue_id r0) c
      have h3 := arrCarrier_restartService
        (exitUpdate w (midDeparture s e.queue_id r0) c) e.queue_id
      exact arrCarrier_trans (arrCarrier_trans h1 h2) h3
    · simp only [hr]
      have h1 : arrCarrier s (midDeparture s e.queue_id r0) :=
        arrCarrier_id rfl rfl
      have h2 := arrCarrier_handleArrival (midDeparture s e.queue_id r0)
        { time := s.clock, type := EType.ARRIVAL, customer := c, queue_id := nq }
      have h3 := arrCarrier_restartService
        (handleArrival (midDeparture s e.queue_id r0)
          { time := s.clock, type := EType.ARRIVAL, customer := c,
            queue_id := nq }) e.queue_id
      exact arrCarrier_trans (arrCarrier_trans h1 h2) h3

theorem consInv_transfer {s1 s2 : SimState}
    (hA : ∀ i, (s2.stats i).Arrivals = (s1.stats i).Arrivals)
    (hD : ∀ i, (s2.stats i).Departures = (s1.stats i).Departures)
    (hq : ∀ i, s2.queues i = s1.queues i)
    (h : consInv s1) : consInv s2 := by
  intro i
  rw [hA i, hD i, hq i]
  exact h i

theorem consInv_handleArrival {s : SimState} {ev : Event} (h : consInv s) :
    consInv (handleArrival s ev) := by
  intro i
  rw [handleArrival_stats_A, handleArrival_stats_D, handleArrival_queues]
  by_cases hiq : i = ev.queue_id
  · rw [if_pos hiq, hiq, upd_same, List.length_append, List.length_singleton]
    have := h ev.queue_id
    omega
  · rw [if_neg hiq, upd_ne _ _ _ _ hiq]
    exact h i

theorem consInv_midDeparture {s : SimState} {q : Nat} {c : Customer}
    {r0 : List Customer} (hq2 : s.queues q = c :: r0) (h : consInv s) :
    consInv (midDeparture s q r0) := by
  intro i
  by_cases hiq : i = q
  · subst hiq
    have := h i
    rw [hq2] at this
    simp only [midDeparture, upd_same, List.length_cons] at this ⊢
    omega
  · simp only [midDeparture, upd_ne _ _ _ _ hiq]
    exact h i

theorem consInv_handleDeparture {w : Nat} {s : SimState} {e : Event}
    (h : consInv s)
    (hw2 : (handleDeparture w s e).is_warming_up = true) :
    consInv (handleDeparture w s e) := by
  rcases hq2 : s.queues e.queue_id with _ | ⟨c, r0⟩
  · rw [handleDeparture_nil hq2]
    exact h
  · rw [handleDeparture_cons hq2] at hw2 ⊢
    have hmid : consInv (midDeparture s e.queue_id r0) :=
      consInv_midDeparture hq2 h
    rcases hr : routeOf e.queue_id (s.rand.unif s.rand.ucount) with _ | nq
    · simp only [hr] at hw2 ⊢
      rcases hw : (midDeparture s e.queue_id r0).is_warming_up with _ | _
      · -- post-warm-up: the completed-count branch; stats and queues kept
        rw [exitUpdate_done hw] at hw2 ⊢
        refine consInv_transfer ?_ ?_ ?_ hmid
        · intro i
          rw [restartService_stats]
        · intro i
          rw [restartService_stats]
        · intro i
          rw [restartService_queues]
      · by_cases hcnt :
            w ≤ (midDeparture s e.queue_id r0).warmup_count + 1
        · -- the reset fired: contradicts hw2
          rw [exitUpdate_reset hw hcnt, restartService_warming] at hw2
          simp [resetStatsPostWarmup] at hw2
        · rw [exitUpdate_warm hw hcnt] at hw2 ⊢
          refine consInv_transfer ?_ ?_ ?_ hmid
          · intro i
            rw [restartService_stats]
          · intro i
            rw [restartService_stats]
          · intro i
            rw [restartService_queues]
    · simp only [hr] at hw2 ⊢
      have hHA : consInv (handleArrival (midDeparture s e.queue_id r0)
          { time := s.clock, type := EType.ARRIVAL, customer := c,
            queue_id := nq }) :=
        consInv_handleArrival hmid
      refine consInv_transfer ?_ ?_ ?_ hHA
      · intro i
        rw [restartService_stats]
      · intro i
        rw [restartService_stats]
      · intro i
        rw [restartService_queues]

theorem accumZero_transfer {s1 s2 : SimState}
    (hL : ∀ i, (s2.stats i).L_accum = (s1.stats i).L_accum)
    (hQ : ∀ i, (s2.stats i).Q_accum = (s1.stats i).Q_accum)
    (hB : ∀ i, (s2.stats i).Busy_accum = (s1.stats i).Busy_accum)
    (h : accumZero s1) : accumZero s2 := by
  intro i
  rw [hL i, hQ i, hB i]
  exact h i

theorem accumZero_handleArrival {s : SimState} {ev : Event}
    (h : accumZero s) : accumZero (handleArrival s ev) :=
  accumZero_transfer (handleArrival_stats_L s ev) (handleArrival_stats_Q s ev)
    (handleArrival_stats_B s ev) h

theorem accumZero_externalSpawn {s : SimState} {ev : Event}
    (h : accumZero s) : accumZero (externalSpawn s ev) := by
  intro i
  rw [externalSpawn_stats]
  exact h i

theorem accumZero_handleDeparture {w : Nat} {s : SimState} {e : Event}
    (h : accumZero s) : accumZero (handleDeparture w s e) := by
  rcases handleDeparture_cases w s e with
    ⟨_, hst, _, _, _⟩ | ⟨_, _, hst, _, _, _, _, _, _⟩
  · intro i
    rcases hst i with ⟨hL, hQ, hB⟩
    rw [hL, hQ, hB]
    exact h i
  · intro i
    rw [hst i]
    exact ⟨rfl, rfl, rfl⟩

theorem countP_isDep_handleArrival_ne {s : SimState} {ev : Event} {q : Nat}
    (hne : ev.queue_id ≠ q) :
    (handleArrival s ev).events.countP (isDep q) =
      s.events.countP (isDep q) := by
  rw [handleArrival_events]
  split
  · rfl
  · rw [countP_insertEvent]
    simp [isDep, hne]

/-- The invariant holds at engine construction. -/
theorem inv_init (w : Nat) (r : Rand) : Inv w (initState r) := by
  rw [initState_eq]
  refine ⟨?_, ?_, ?_, ?_, ?_, ?_⟩
  · intro _ i
    rfl
  · intro _ i
    exact ⟨rfl, rfl, rfl⟩
  · intro hf
    exact Bool.noConfusion hf
  · intro i
    constructor
    · intro hb
      exact Bool.noConfusion hb
    · intro _
      refine ⟨rfl, ?_⟩
      simp [isDep]
  · intro hNN
    constructor
    · exact List.pairwise_singleton _ _
    · intro x hx
      rcases List.mem_singleton.1 hx with rfl
      exact hNN r.ecount LAMBDA_SOURCE_RATE
  · constructor
    · simp [isArr]
    · intro e2 he2 ht2
      rcases List.mem_singleton.1 he2 with rfl
      exact ⟨rfl, rfl⟩

/-- The invariant is preserved by every successful `step`. -/
theorem inv_step {w m : Nat} {s : SimState} {e : Event} {s2 : SimState}
    (h : step w m s = some (e, s2)) (hI : Inv w s) : Inv w s2 := by
  obtain ⟨hCons, hZero, hWB, hBusy, hTime, hArr⟩ := hI
  rcases step_some_cases h with ⟨rest, hev, hc, hbr⟩
  rcases hbr with ⟨ht, rfl⟩ | ⟨ht, rfl⟩
  · -- ARRIVAL branch
    have hmemE : e ∈ s.events := by
      rw [hev]
      exact List.mem_cons_self _ _
    obtain ⟨hq1, hid⟩ := hArr.2 e hmemE ht
    have hcnt0 : rest.countP isArr = 0 := by
      have h1 := hArr.1
      rw [hev, List.countP_cons] at h1
      simp [isArr, ht] at h1
      refine List.countP_eq_zero.2 ?_
      intro a ha
      simp only [isArr, decide_eq_true_eq]
      exact h1 a ha
    have f1 : (externalSpawn (handleArrival (preState s e rest) e) e).is_warming_up
        = s.is_warming_up := by
      rw [externalSpawn_warming, handleArrival_warming, preState_warming]
    have f3 : (externalSpawn (handleArrival (preState s e rest) e) e).rand.expo
        = s.rand.expo := by
      rw [externalSpawn_expo, handleArrival_expo, preState_rand]
    refine ⟨?_, ?_, ?_, ?_, ?_, ?_⟩
    · -- conservation while warming
      intro hw2
      have hws : s.is_warming_up = true := f1 ▸ hw2
      have hconsP : consInv (preState s e rest) :=
        consInv_transfer (fun i => (preState_stats_counts s e rest i).1)
          (fun i => (preState_stats_counts s e rest i).2)
          (fun i => by rw [preState_queues]) (hCons hws)
      refine consInv_transfer (fun i => by rw [externalSpawn_stats])
        (fun i => by rw [externalSpawn_stats])
        (fun i => by rw [externalSpawn_queues])
        (consInv_handleArrival hconsP)
    · -- accumulators zero while warming
      intro hw2
      have hws : s.is_warming_up = true := f1 ▸ hw2
      have hzP : accumZero (preState s e rest) := by
        intro i
        rw [preState_stats_warm e rest hws]
        exact hZero hws i
      exact accumZero_externalSpawn (accumZero_handleArrival hzP)
    · -- warm-up count bound once steady
      intro hw2
      have hws : s.is_warming_up = false := f1 ▸ hw2
      have f2 : (externalSpawn (handleArrival (preState s e rest) e) e).warmup_count
          = s.warmup_count := by
        rw [externalSpawn_warmup_count, handleArrival_warmup_count,
          preState_warmup_count]
      rw [f2]
      exact hWB hws
    · -- busy/departure invariant
      intro i
      have hbP : busyAt (preState s e rest) i := by
        refine busyAt_transfer ?_ ?_ ?_ ?_ (hBusy i)
        · rw [preState_queues]
        · rw [preState_busy]
        · rw [preState_events, hev, List.countP_cons]
          simp [isDep, ht]
        · intro x hx _
          rw [preState_events] at hx
          rw [hev]
          exact List.mem_cons_of_mem _ hx
      exact busyAt_externalSpawn i (busyAt_handleArrival i hbP)
    · -- event-time ordering
      intro hNN2
      have hNNs : expoNN s := expoNN_of f3.symm hNN2
      have hTs := hTime hNNs
      have hTp : timeInv (preState s e rest) := by
        constructor
        · rw [preState_events]
          have h1 := hTs.1
          rw [hev] at h1
          exact h1.of_cons
        · intro x hx
          rw [preState_events] at hx
          rw [preState_clock]
          have h1 := hTs.1
          rw [hev] at h1
          exact (List.pairwise_cons.1 h1).1 x hx
      have hNNp : expoNN (preState s e rest) :=
        expoNN_of (by rw [preState_rand]) hNNs
      have hNNa : expoNN (handleArrival (preState s e rest) e) :=
        expoNN_of (handleArrival_expo _ e) hNNp
      exact timeInv_externalSpawn hNNa (timeInv_handleArrival hNNp hTp)
    · -- single external arrival
      have hidA : e.customer.id =
          (handleArrival (preState s e rest) e).cust_counter := by
        rw [handleArrival_cust_counter, preState_cust_counter]
        exact hid
      have hS2 := externalSpawn_hit hq1 hidA
      have hcarA : arrCarrier (preState s e rest)
          (handleArrival (preState s e rest) e) := arrCarrier_handleArrival _ e
      have hA0 : (handleArrival (preState s e rest) e).events.countP isArr
          = 0 := by
        rw [hcarA.2.1, preState_events]
        exact hcnt0
      constructor
      · rw [hS2]
        show (insertEvent _ _).countP isArr = 1
        rw [countP_insertEvent, hA0]
        simp [isArr]
      · intro x hx htx
        rw [hS2] at hx
        have hx2 : x ∈ insertEvent
            (handleArrival (preState s e rest) e).events _ := hx
        rcases mem_insertEvent.1 hx2 with hxa | rfl
        · exfalso
          have hxP := hcarA.2.2 x hxa (by simp [isArr, htx])
          rw [preState_events] at hxP
          exact absurd (by simp [isArr, htx] : isArr x = true)
            (List.countP_eq_zero.1 hcnt0 x hxP)
        · refine ⟨rfl, ?_⟩
          rw [hS2]
          rfl
  · -- DEPARTURE branch
    have hdep : isDep e.queue_id e = true := by
      simp [isDep, ht]
    have hbq : s.server_busy e.queue_id = true := by
      rcases hbq0 : s.server_busy e.queue_id with _ | _
      · exfalso
        have h0 := ((hBusy e.queue_id).2 hbq0).2
        rw [hev, List.countP_cons] at h0
        simp [hdep] at h0
      · rfl
    obtain ⟨c, r0, hq2, hcnt1, hmatch⟩ := (hBusy e.queue_id).1 hbq
    have hcnt0q : rest.countP (isDep e.queue_id) = 0 := by
      rw [hev, List.countP_cons] at hcnt1
      simp only [hdep, if_true] at hcnt1
      omega
    have hq2p : (preState s e rest).queues e.queue_id = c :: r0 := by
      rw [preState_queues]
      exact hq2
    refine ⟨?_, ?_, ?_, ?_, ?_, ?_⟩
    · -- conservation while warming
      intro hw2
      have hws : s.is_warming_up = true := by
        rcases handleDeparture_cases w (preState s e rest) e with
          ⟨hwm, _, _, _, _⟩ | ⟨_, hwm2, _, _, _, _, _, _, _⟩
        · rw [← preState_warming s e rest, ← hwm]
          exact hw2
        · rw [hwm2] at hw2
          exact absurd hw2 (by decide)
      have hconsP : consInv (preState s e rest) :=
        consInv_transfer (fun i => (preState_stats_counts s e rest i).1)
          (fun i => (preState_stats_counts s e rest i).2)
          (fun i => by rw [preState_queues]) (hCons hws)
      exact consInv_handleDeparture hconsP hw2
    · -- accumulators zero while warming
      intro hw2
      have hws : s.is_warming_up = true := by
        rcases handleDeparture_cases w (preState s e rest) e with
          ⟨hwm, _, _, _, _⟩ | ⟨_, hwm2, _, _, _, _, _, _, _⟩
        · rw [← preState_warming s e rest, ← hwm]
          exact hw2
        · rw [hwm2] at hw2
          exact absurd hw2 (by decide)
      have hzP : accumZero (preState s e rest) := by
        intro i
        rw [preState_stats_warm e rest hws]
        exact hZero hws i
      exact accumZero_handleDeparture hzP
    · -- warm-up count bound once steady
      intro hw2
      rcases handleDeparture_cases w (preState s e rest) e with
        ⟨hwm, _, _, _, hwc⟩ | ⟨_, _, _, _, _, _, _, hwcEq, hwle⟩
      · have hws : s.is_warming_up = false := by
          rw [← preState_warming s e rest, ← hwm]
          exact hw2
        have hwc2 : s.warmup_count ≤
            (handleDeparture w (preState s e rest) e).warmup_count := by
          have h1 := hwc
          rw [preState_warmup_count] at h1
          exact h1
        exact le_trans (hWB hws) hwc2
      · rw [hwcEq]
        exact hwle
    · -- busy/departure invariant
      intro i
      have hcnt0m : (midDeparture (preState s e rest) e.queue_id r0).events.countP
          (isDep e.queue_id) = 0 := by
        show (preState s e rest).events.countP (isDep e.queue_id) = 0
        rw [preState_events]
        exact hcnt0q
      rw [handleDeparture_cons hq2p]
      by_cases hiq : i = e.queue_id
      · rw [hiq]
        rcases hr : routeOf e.queue_id ((preState s e rest).rand.unif
            (preState s e rest).rand.ucount) with _ | nq
        · simp only [hr]
          refine busyAt_restartService_self ?_
          rw [exitUpdate_events]
          exact hcnt0m
        · simp only [hr]
          refine busyAt_restartService_self ?_
          rw [countP_isDep_handleArrival_ne (routeOf_ne hr)]
          exact hcnt0m
      · have hne2 : e.queue_id ≠ i := fun hh => hiq hh.symm
        have hbPi : busyAt (preState s e rest) i := by
          refine busyAt_transfer ?_ ?_ ?_ ?_ (hBusy i)
          · rw [preState_queues]
          · rw [preState_busy]
          · rw [preState_events, hev, List.countP_cons]
            simp [isDep, hne2]
          · intro x hx _
            rw [preState_events] at hx
            rw [hev]
            exact List.mem_cons_of_mem _ hx
        have hbMi : busyAt (midDeparture (preState s e rest) e.queue_id r0)
            i := by
          refine busyAt_transfer ?_ ?_ ?_ ?_ hbPi
          · exact upd_ne _ _ _ _ hiq
          · rfl
          · rfl
          · exact fun x hx _ => hx
        rcases hr : routeOf e.queue_id ((preState s e rest).rand.unif
            (preState s e rest).rand.ucount) with _ | nq
        · simp only [hr]
          exact busyAt_restartService_ne i hiq (busyAt_exitUpdate i hbMi)
        · simp only [hr]
          exact busyAt_restartService_ne i hiq (busyAt_handleArrival i hbMi)
    · -- event-time ordering
      intro hNN2
      have f3 : (handleDeparture w (preState s e rest) e).rand.expo
          = s.rand.expo := by
        rw [handleDeparture_expo, preState_rand]
      have hNNs : expoNN s := expoNN_of f3.symm hNN2
      have hTs := hTime hNNs
      have hTp : timeInv (preState s e rest) := by
        constructor
        · rw [preState_events]
          have h1 := hTs.1
          rw [hev] at h1
          exact h1.of_cons
        · intro x hx
          rw [preState_events] at hx
          rw [preState_clock]
          have h1 := hTs.1
          rw [hev] at h1
          exact (List.pairwise_cons.1 h1).1 x hx
      have hNNp : expoNN (preState s e rest) :=
        expoNN_of (by rw [preState_rand]) hNNs
      have hTm : timeInv (midDeparture (preState s e rest) e.queue_id r0) := hTp
      have hNNm : expoNN (midDeparture (preState s e rest) e.queue_id r0) :=
        hNNp
      rw [handleDeparture_cons hq2p]
      rcases hr : routeOf e.queue_id ((preState s e rest).rand.unif
          (preState s e rest).rand.ucount) with _ | nq
      · simp only [hr]
        refine timeInv_restartService ?_ (timeInv_exitUpdate hTm)
        exact expoNN_of (by rw [exitUpdate_rand]) hNNm
      · simp only [hr]
        refine timeInv_restartService ?_ (timeInv_handleArrival hNNm hTm)
        exact expoNN_of (handleArrival_expo _ _) hNNm
    · -- single external arrival
      have hya : isArr e = false := isArr_false_of_dep ht
      have hArrP : arrInv (preState s e rest) := by
        constructor
        · rw [preState_events]
          have h1 := hArr.1
          rw [hev, List.countP_cons] at h1
          simp only [hya, Bool.false_eq_true, if_false, Nat.add_zero] at h1
          exact h1
        · intro x hx htx
          rw [preState_events] at hx
          have h2 := hArr.2 x (by rw [hev]; exact List.mem_cons_of_mem _ hx) htx
          refine ⟨h2.1, ?_⟩
          rw [preState_cust_counter]
          exact h2.2
      exact arrInv_of_carrier hArrP (arrCarrier_handleDeparture w _ e)

/-- Every reachable state satisfies the invariant. -/
theorem inv_reachable {w m : Nat} {s : SimState} (h : Reachable w m s) :
    Inv w s := by
  induction h with
  | init r => exact inv_init w r
  | next _ hstep ih => exact inv_step hstep ih

theorem step_clock {w m : Nat} {s : SimState} {e : Event} {s2 : SimState}
    (h : step w m s = some (e, s2)) : s2.clock = e.time := by
  rcases step_some_cases h with ⟨rest, hev, hc, hbr⟩
  rcases hbr with ⟨ht, rfl⟩ | ⟨ht, rfl⟩
  · rw [externalSpawn_clock, handleArrival_clock, preState_clock]
  · rw [handleDeparture_clock, preState_clock]

theorem step_warming_mono {w m : Nat} {s : SimState} {e : Event}
    {s2 : SimState} (h : step w m s = some (e, s2))
    (hw : s.is_warming_up = false) : s2.is_warming_up = false := by
  rcases step_some_cases h with ⟨rest, hev, hc, hbr⟩
  rcases hbr with ⟨ht, rfl⟩ | ⟨ht, rfl⟩
  · rw [externalSpawn_warming, handleArrival_warming, preState_warming]
    exact hw
  · rcases handleDeparture_cases w (preState s e rest) e with
      ⟨hwm, _, _, _, _⟩ | ⟨_, hwm2, _, _, _, _, _, _, _⟩
    · rw [hwm, preState_warming]
      exact hw
    · exact hwm2

theorem step_warming_flip {w m : Nat} {s : SimState} {e : Event}
    {s2 : SimState} (h : step w m s = some (e, s2))
    (hw1 : s.is_warming_up = true) (hw2 : s2.is_warming_up = false) :
    (∀ i, s2.stats i = StationStats.zero) ∧
    s2.steady_start_time = s2.clock ∧
    s2.last_update = s2.clock ∧
    s2.completed_count = 0 ∧
    s2.total_response_time = 0 := by
  rcases step_some_cases h with ⟨rest, hev, hc, hbr⟩
  rcases hbr with ⟨ht, rfl⟩ | ⟨ht, rfl⟩
  · exfalso
    have f1 : (externalSpawn (handleArrival (preState s e rest) e) e).is_warming_up
        = s.is_warming_up := by
      rw [externalSpawn_warming, handleArrival_warming, preState_warming]
    rw [f1, hw1] at hw2
    exact absurd hw2 (by decide)
  · rcases handleDeparture_cases w (preState s e rest) e with
      ⟨hwm, _, _, _, _⟩ | ⟨_, _, hst, hlu, hsteady, hcmp, htrt, _, _⟩
    · exfalso
      rw [hwm, preState_warming, hw1] at hw2
      exact absurd hw2 (by decide)
    · have hck : (handleDeparture w (preState s e rest) e).clock
          = (preState s e rest).clock := handleDeparture_clock w _ e
      refine ⟨hst, ?_, ?_, hcmp, htrt⟩
      · rw [hsteady, hck]
      · rw [hlu, hck]

/-- C3 (amended): station-level conservation `Arrivals − Departures =
current queue length` holds in every reachable state in which the warm-up
statistics reset has not yet occurred (`is_warming_up` still true); the
reset breaks it by zeroing the counters while keeping queue contents. -/
theorem c3_conservation_before_reset (w m : Nat) (s : SimState)
    (h : Reachable w m s) (hw : s.is_warming_up = true) (i : Nat) :
    (s.stats i).Arrivals = (s.stats i).Departures + (s.queues i).length :=
  (inv_reachable h).1 hw i

/-- Witness for C3 (amended): the freshly constructed engine, station 1. -/
theorem c3_conservation_before_reset_witness :
    ((initState stubRand).stats 1).Arrivals =
      ((initState stubRand).stats 1).Departures +
        ((initState stubRand).queues 1).length :=
  c3_conservation_before_reset 0 5 (initState stubRand)
    (Reachable.init stubRand) rfl 1

/-- C5 (amended): in every reachable state before `warmup_count` reaches the
threshold, the three time-integral accumulators are exactly zero (the
`Arrivals`/`Departures` event counters, by contrast, do advance during
warm-up); at the step on which the warming flag first flips, the resulting
state has all statistics records zeroed and `steady_start_time` equal to
the clock at that moment, and once the flag is false it stays false. -/
theorem c5_warmup_isolation (w m : Nat) (s : SimState) (h : Reachable w m s) :
    (s.warmup_count < w →
      ∀ i, (s.stats i).L_accum = 0 ∧ (s.stats i).Q_accum = 0 ∧
        (s.stats i).Busy_accum = 0) ∧
    ∀ e s2, step w m s = some (e, s2) →
      (s.is_warming_up = true → s2.is_warming_up = false →
        (∀ i, s2.stats i = StationStats.zero) ∧
        s2.steady_start_time = s2.clock) ∧
      (s.is_warming_up = false → s2.is_warming_up = false) := by
  obtain ⟨hCons, hZero, hWB, hBusy, hTime, hArr⟩ := inv_reachable h
  constructor
  · intro hlt i
    have hw : s.is_warming_up = true := by
      rcases hb : s.is_warming_up with _ | _
      · exact absurd (hWB hb) (by omega)
      · rfl
    exact hZero hw i
  · intro e s2 hstep
    constructor
    · intro hw1 hw2
      obtain ⟨hst, hsteady, _, _, _⟩ := step_warming_flip hstep hw1 hw2
      exact ⟨hst, hsteady⟩
    · exact step_warming_mono hstep

/-- Witness for C5 (amended): the freshly constructed engine with threshold
1000 has zero time integrals at station 1. -/
theorem c5_warmup_isolation_witness :
    ((initState stubRand).stats 1).L_accum = 0 ∧
    ((initState stubRand).stats 1).Q_accum = 0 ∧
    ((initState stubRand).stats 1).Busy_accum = 0 :=
  (c5_warmup_isolation 1000 5 (initState stubRand)
    (Reachable.init stubRand)).1 (by decide) 1

/-- C7: in every reachable state, a station's server is busy exactly when
its queue is non-empty and a DEPARTURE event for the head customer is
pending, and at most one DEPARTURE event per station is outstanding. -/
theorem c7_busy_iff_pending_departure (w m : Nat) (s : SimState)
    (h : Reachable w m s) (i : Nat) :
    (s.server_busy i = true ↔
      ∃ c r, s.queues i = c :: r ∧
        ∃ ev ∈ s.events, ev.type = EType.DEPARTURE ∧ ev.queue_id = i ∧
          ev.customer = c) ∧
    s.events.countP (isDep i) ≤ 1 := by
  have hB := (inv_reachable h).2.2.2.1 i
  constructor
  · constructor
    · intro hb
      rcases hB.1 hb with ⟨c, r, hq, hcnt, hm⟩
      have hpos : 0 < s.events.countP (isDep i) := by omega
      obtain ⟨ev, hmem, hd⟩ := List.countP_pos_iff.1 hpos
      have hd2 : ev.type = EType.DEPARTURE ∧ ev.queue_id = i := by
        simpa [isDep] using hd
      exact ⟨c, r, hq, ev, hmem, hd2.1, hd2.2, hm ev hmem hd⟩
    · rintro ⟨c, r, hq, ev, hmem, htp, hqi, hcust⟩
      rcases hbb : s.server_busy i with _ | _
      · exfalso
        have hflat := (hB.2 hbb).1
        rw [hq] at hflat
        exact List.noConfusion hflat
      · rfl
  · rcases hbb : s.server_busy i with _ | _
    · rw [(hB.2 hbb).2]
      omega
    · obtain ⟨c, r, _, hcnt, _⟩ := hB.1 hbb
      exact hcnt.le

/-- Witness for C7: the freshly constructed engine, station 1 (idle, empty,
no pending departure). -/
theorem c7_busy_iff_pending_departure_witness :
    (initState stubRand).events.countP (isDep 1) ≤ 1 :=
  (c7_busy_iff_pending_departure 0 5 (initState stubRand)
    (Reachable.init stubRand) 1).2

/-- C8: the clock is non-decreasing — in any reachable state whose
(preserved) exponential oracle yields only non-negative draws, the popped
event's time is at least the current clock and the new clock equals it. -/
theorem c8_clock_nondecreasing (w m : Nat) (s : SimState)
    (h : Reachable w m s) (hNN : ∀ n r, 0 ≤ s.rand.expo n r) (e : Event)
    (s2 : SimState) (hstep : step w m s = some (e, s2)) :
    s.clock ≤ e.time ∧ s2.clock = e.time := by
  have hT := (inv_reachable h).2.2.2.2.1 hNN
  rcases step_some_cases hstep with ⟨rest, hev, _, _⟩
  constructor
  · refine hT.2 e ?_
    rw [hev]
    exact List.mem_cons_self _ _
  · exact step_clock hstep

/-- Witness for C8: the first step of the deterministic trace run (clock 0,
event at time 1). -/
theorem c8_clock_nondecreasing_witness :
    (initState stubRand).clock ≤
      ({ time := 1, type := EType.ARRIVAL,
         customer := { id := 1, arrival_time := 0 },
         queue_id := 1 } : Event).time ∧
    stubState1.clock =
      ({ time := 1, type := EType.ARRIVAL,
         customer := { id := 1, arrival_time := 0 },
         queue_id := 1 } : Event).time :=
  c8_clock_nondecreasing 0 5 (initState stubRand) (Reachable.init stubRand)
    (by
      intro n r
      show (0 : ℚ) ≤ if r = LAMBDA_SOURCE_RATE then 1 else 1/2
      split <;> norm_num)
    { time := 1, type := EType.ARRIVAL,
      customer := { id := 1, arrival_time := 0 }, queue_id := 1 }
    stubState1 (by with_unfolding_all rfl)

/-- C10: in every reachable state the pending list holds exactly one
ARRIVAL event — the next external arrival at station 1, carrying the
current customer-counter id — so the list is never empty, and `step` can
only answer "finished" because the completion target has been reached. -/
theorem c10_one_pending_external_arrival (w m : Nat) (s : SimState)
    (h : Reachable w m s) :
    s.events ≠ [] ∧
    s.events.countP isArr = 1 ∧
    (∀ ev ∈ s.events, ev.type = EType.ARRIVAL →
      ev.queue_id = 1 ∧ ev.customer.id = s.cust_counter) ∧
    (step w m s = none → m ≤ s.completed_count) := by
  have hA := (inv_reachable h).2.2.2.2.2
  refine ⟨?_, hA.1, hA.2, ?_⟩
  · intro hnil
    have h1 := hA.1
    rw [hnil] at h1
    simp at h1
  · intro hnone
    rcases hevs : s.events with _ | ⟨a, l⟩
    · exfalso
      have h1 := hA.1
      rw [hevs] at h1
      simp at h1
    · rw [step, hevs] at hnone
      by_cases hcc : m ≤ s.completed_count
      · exact hcc
      · exfalso
        rcases hta : a.type with _ | _ <;> simp [hta, hcc] at hnone

/-- Witness for C10: the freshly constructed engine holds exactly one
ARRIVAL event. -/
theorem c10_one_pending_external_arrival_witness :
    (initState stubRand).events.countP isArr = 1 :=
  (c10_one_pending_external_arrival 0 5 (initState stubRand)
    (Reachable.init stubRand)).2.1

end QNet
